import Mathlib

/-!
Verification development for the entity synchronization engine of a
multi-tenant Telegram bot proxy (FastAPI + SQLAlchemy service).

The Python sources are shallowly embedded:

* JSON payloads and Python dictionaries become the inductive `JVal`;
* the typed object graph walked by the entity extractor
  (`app/core/utils.py`) becomes an explicit node list `PyGraph` in which
  references are node indices, so object identity is the node index;
* SQLAlchemy tables become lists of row structures inside `DB`, and every
  statement (`select`, `insert`, `update`) becomes a pure function from
  `DB` to its result respecting the exact FROM/JOIN/WHERE structure of
  the statement object built by the source;
* fallible paths (exceptions that the delivery pipeline swallows) return
  `Option`.
-/

/-- A JSON value / decoded Python dictionary (`Dict[str, Any]`). Objects
are ordered key-value lists, mirroring Python 3.7+ dict ordering. -/
inductive JVal where
  | null : JVal
  | bool (b : Bool) : JVal
  | int (n : Int) : JVal
  | str (s : String) : JVal
  | arr (xs : List JVal) : JVal
  | obj (fields : List (String × JVal)) : JVal
deriving Repr, Inhabited

namespace JVal

/-- `d.get(key)` on a Python dict: first binding wins. -/
def getKey : JVal → String → Option JVal
  | obj fields, k => fields.lookup k
  | _, _ => none

/-- `d[key] = v` on a Python dict: replace in place if present (keeping
insertion order), append otherwise. On a non-dict this is unreachable in
the embedded code paths. -/
def setKeyFields (fields : List (String × JVal)) (k : String) (v : JVal) :
    List (String × JVal) :=
  if (fields.lookup k).isSome then
    fields.map (fun p => if p.1 = k then (k, v) else p)
  else
    fields ++ [(k, v)]

def setKey : JVal → String → JVal → JVal
  | obj fields, k, v => obj (setKeyFields fields k v)
  | j, _, _ => j

/-- `del d[key]` on a Python dict (no error if the key is absent; the
embedded call sites only delete keys that are always present). -/
def delKey : JVal → String → JVal
  | obj fields, k => obj (fields.filter (fun p => p.1 ≠ k))
  | j, _ => j

/-- Python truthiness of a decoded JSON value. -/
def truthy : JVal → Bool
  | null => false
  | bool b => b
  | int n => n ≠ 0
  | str s => s ≠ ""
  | arr xs => ¬xs.isEmpty
  | obj fields => ¬fields.isEmpty

def asInt : JVal → Option Int
  | int n => some n
  | _ => none

def asStr : JVal → Option String
  | str s => some s
  | _ => none

end JVal

/-- `dict.get(key)` on a request dictionary, `JVal.null` when absent
(both are falsy, matching `req.get(k)` returning `None`). -/
def reqGet (req : JVal) (k : String) : JVal :=
  (req.getKey k).getD JVal.null

/-- Truthiness of an optional string, as in `if message.text:`:
`None` and `""` are falsy. -/
def optStrTruthy : Option String → Bool
  | none => false
  | some s => s ≠ ""

/-- Truthiness of an optional integer (`None` and `0` are falsy). -/
def optIntTruthy : Option Int → Bool
  | none => false
  | some n => n ≠ 0

/-! ### Payload entity data (python-telegram-bot decoded objects)

`telegram.User`, `telegram.Chat` and `telegram.Message` instances found
inside a decoded payload.  Only the attributes the synchronization engine
reads are carried; `toDict` data used for overflow extraction is carried
verbatim as the object's `to_dict()` rendering. -/

structure UserE where
  id : Int
  firstName : String
  lastName : Option String := none
  username : Option String := none
  languageCode : Option String := none
  isPremium : Option Bool := none
  isBot : Bool := false
deriving Repr, DecidableEq, Inhabited

structure ChatE where
  id : Int
  ctype : String
  title : Option String := none
  username : Option String := none
  firstName : Option String := none
  lastName : Option String := none
  isForum : Option Bool := none
  isDirectMessages : Option Bool := none
deriving Repr, DecidableEq, Inhabited

/-- A decoded `telegram.Message`.  `chatId` mirrors the `Message.chat_id`
property (`self.chat.id`); `toDict` is the object's `to_dict()`
rendering, used for `get_message_type` attribute probing and for the
overflow (`other_data`) computation. -/
structure MessageE where
  id : Int
  chatId : Int
  messageThreadId : Option Int := none
  text : Option String := none
  caption : Option String := none
  fromUserId : Option Int := none
  senderChatId : Option Int := none
  senderBoostCount : Option Int := none
  senderBusinessBotId : Option Int := none
  date : Int
  editDate : Option Int := none
  businessConnectionId : Option String := none
  isTopicMessage : Option Bool := none
  isAutomaticForward : Option Bool := none
  hasMediaSpoiler : Option Bool := none
  hasProtectedContent : Option Bool := none
  isFromOffline : Option Bool := none
  isPaidPost : Option Bool := none
  authorSignature : Option String := none
  paidStarCount : Option Int := none
  toDict : JVal := JVal.obj []
deriving Repr, Inhabited

/-! ### Payload object graph

The decode step (python-telegram-bot `de_json`, an external collaborator
per the design) turns raw JSON into an object graph.  A `PyGraph` is that
graph: `nodes[i]` is the object with identity `i` (Python `id(obj)`), and
`children` lists, in traversal order, the values yielded for that object
by `find_instances`/`find_objects_with_attributes`: `obj.values()` for a
dict, the items for a list/tuple/set, and the non-underscore `dir(obj)`
attributes (alphabetical) otherwise.  Cyclic and shared references are
arbitrary indices, so self-referential payloads are expressible. -/

/-- `isinstance` facts about one payload object. -/
inductive EntityData where
  | user (u : UserE)
  | chat (c : ChatE)
  | message (m : MessageE)
  | other
deriving Repr, Inhabited

structure PyObj where
  children : List Nat := []
  entity : EntityData := EntityData.other
  /-- `some (file_unique_id, file_id)` when the object exposes both a
  `file_unique_id` and a `file_id` attribute (duck-typed file). -/
  fileAttrs : Option (String × String) := none
  /-- `get_file_type`: the `FileType` value for the object's concrete
  class per `FILE_TO_TYPE_MAPPING`, `none` for unrecognized shapes
  (then the object is also not a `TelegramObject` candidate). -/
  fileType : Option String := none
  /-- `to_dict()` of the object, used for the files-JSON construction. -/
  fileDict : JVal := JVal.obj []
deriving Repr, Inhabited

structure PyGraph where
  nodes : List PyObj
deriving Repr, Inhabited

/-- Object lookup by identity; out-of-range indices denote opaque leaf
objects with no public attributes. -/
def PyGraph.get (g : PyGraph) (i : Nat) : PyObj :=
  g.nodes.getD i {}

/-! ### Database rows (SQLAlchemy models in `app/db/models/telegram`) -/

structure UserRow where
  id : Int
  firstName : String
  lastName : Option String := none
  username : Option String := none
  languageCode : Option String := none
  isPremium : Bool := false
  isBot : Bool := false
deriving Repr, DecidableEq, Inhabited

structure ChatRow where
  id : Int
  ctype : String
  title : Option String := none
  username : Option String := none
  firstName : Option String := none
  lastName : Option String := none
  isForum : Bool := false
  isDirectMessages : Bool := false
  personalChatId : Option Int := none
  parentChatId : Option Int := none
  pinnedMessageId : Option Int := none
  photoSmallId : Option String := none
  photoBigId : Option String := none
  otherData : Option JVal := none
deriving Repr, Inhabited

structure MsgRow where
  id : Int
  chatId : Int
  messageType : String
  messageThreadId : Option Int := none
  text : Option String := none
  caption : Option String := none
  fromUserId : Option Int := none
  senderChatId : Option Int := none
  senderBoostCount : Option Int := none
  senderBusinessBotId : Option Int := none
  date : Int
  editDate : Option Int := none
  businessConnectionId : Option String := none
  isTopicMessage : Bool := false
  isAutomaticForward : Bool := false
  hasMediaSpoiler : Bool := false
  hasProtectedContent : Bool := false
  isFromOffline : Bool := false
  isPaidPost : Bool := false
  authorSignature : Option String := none
  paidStarCount : Option Int := none
  otherData : Option JVal := none
deriving Repr, Inhabited

structure FileRow where
  fileUniqueId : String
  fileType : String
  fileSize : Option Int := none
  mimeType : Option String := none
  otherData : Option JVal := none
deriving Repr, Inhabited

structure BotMessageRow where
  botId : Int
  chatId : Int
  messageId : Int
deriving Repr, DecidableEq, Inhabited

structure BotFileRow where
  botId : Int
  fileUniqueId : String
  fileId : String
deriving Repr, DecidableEq, Inhabited

/-- The persistent storage touched by the synchronization engine. -/
structure DB where
  users : List UserRow := []
  chats : List ChatRow := []
  messages : List MsgRow := []
  files : List FileRow := []
  botMessages : List BotMessageRow := []
  botFiles : List BotFileRow := []
deriving Repr, Inhabited

/-! ### Entity Extractor (`app/core/utils.py`)

`find_instances` and `find_objects_with_attributes` share one traversal
scheme: take the object; if its `id()` is in `seen`, stop; otherwise add
it, test the match predicate, then walk its values/items/attributes with
the same (mutated, shared) `seen` set.  The embedding threads the worklist
of pending sibling objects explicitly (the Python `for` loops) and passes
an explicit fuel argument; `findGo_isSome` below proves the fuel bound
`fuelBound` always suffices, which is the termination argument for the
Python recursion.  The traversal returns the final seen set, the ordered
log of first visits (the `seen.add(obj_id)` events) and the ordered list
of matching object identities. -/

def findGo (g : PyGraph) (p : PyObj → Bool) :
    Nat → List Nat → Finset ℕ → Option (Finset ℕ × List ℕ × List ℕ)
  | _, [], seen => some (seen, [], [])
  | 0, _ :: _, _ => none
  | fuel + 1, i :: rest, seen =>
    if i ∈ seen then
      -- `if obj_id in seen: return []`
      findGo g p fuel rest seen
    else
      match findGo g p fuel (g.get i).children (insert i seen) with
      | none => none
      | some (s₂, log₂, found₂) =>
        match findGo g p fuel rest s₂ with
        | none => none
        | some (s₃, log₃, found₃) =>
          some (s₃, i :: (log₂ ++ log₃),
            (if p (g.get i) then [i] else []) ++ found₂ ++ found₃)

/-- Fuel budget of one unvisited node: one step for the node itself plus
one step per value/item/attribute it contributes to the worklist. -/
def nodeWeight (g : PyGraph) (i : Nat) : Nat :=
  (g.get i).children.length + 1

/-- Remaining fuel budget of the not-yet-visited part of the graph. -/
def potential (g : PyGraph) (seen : Finset ℕ) : Nat :=
  ∑ i in Finset.range g.nodes.length \ seen, nodeWeight g i

/-- Fuel sufficient for a whole traversal from worklist `l`. -/
def fuelBound (g : PyGraph) (l : List Nat) : Nat :=
  l.length + potential g ∅

/-- The traversal, run with sufficient fuel (total by `findGo_isSome`). -/
def findTraverse (g : PyGraph) (p : PyObj → Bool) (l : List Nat) :
    Finset ℕ × List ℕ × List ℕ :=
  (findGo g p (fuelBound g l) l ∅).getD (∅, [], [])

/-- `isinstance(obj, target_type)` for the three typed entity kinds. -/
def isUserObj (o : PyObj) : Bool :=
  match o.entity with | EntityData.user _ => true | _ => false

def isChatObj (o : PyObj) : Bool :=
  match o.entity with | EntityData.chat _ => true | _ => false

def isMessageObj (o : PyObj) : Bool :=
  match o.entity with | EntityData.message _ => true | _ => false

/-- `all(hasattr(obj, attr) for attr in ("file_unique_id", "file_id"))`. -/
def hasFileAttrs (o : PyObj) : Bool :=
  o.fileAttrs.isSome

/-- `find_instances(obj, target_type)`: identities of the matching
objects, in traversal order. -/
def findInstances (g : PyGraph) (p : PyObj → Bool) (root : Nat) : List Nat :=
  (findTraverse g p [root]).2.2

/-- `find_objects_with_attributes(obj, required_attrs)` for the file
duck-typing attribute pair. -/
def findObjectsWithAttributes (g : PyGraph) (root : Nat) : List Nat :=
  (findTraverse g hasFileAttrs [root]).2.2

/-- `deduplicate(objects, field)` / `deduplicate_compound`: a dict keyed
by the field(s), first occurrence wins, insertion order kept. -/
def dedupKeyed {κ α : Type} [DecidableEq κ] (pairs : List (κ × α)) :
    List (κ × α) :=
  pairs.foldl (fun acc p => if acc.any (fun q => q.1 = p.1) then acc else acc ++ [p]) []

/-- `remove_fields(data, exclude)`: delete the excluded top-level keys. -/
def removeFieldsTop (fields : List (String × JVal)) (excl : List String) :
    List (String × JVal) :=
  fields.filter (fun p => p.1 ∉ excl)

mutual

/-- The `recurse` helper of `remove_fields`: delete `exclude_nested` keys
in every nested dict, descending through dicts and lists. -/
def removeNested (excl : List String) : JVal → JVal
  | JVal.obj fields => JVal.obj (removeNestedFields excl fields)
  | JVal.arr xs => JVal.arr (removeNestedList excl xs)
  | j => j

def removeNestedFields (excl : List String) :
    List (String × JVal) → List (String × JVal)
  | [] => []
  | (k, v) :: rest =>
    if k ∈ excl then removeNestedFields excl rest
    else (k, removeNested excl v) :: removeNestedFields excl rest

def removeNestedList (excl : List String) : List JVal → List JVal
  | [] => []
  | x :: xs => removeNested excl x :: removeNestedList excl xs

end

/-- `remove_fields(data, exclude, exclude_nested)` on a decoded dict. -/
def removeFields (fields : List (String × JVal)) (excl : List String)
    (exclNested : List String) : List (String × JVal) :=
  removeNestedFields exclNested (removeFieldsTop fields excl)

/-- `d or null()`: an emptied-out dict is stored as SQL NULL. -/
def orNull (fields : List (String × JVal)) : Option JVal :=
  if fields.isEmpty then none else some (JVal.obj fields)

/-! ### Catalog helpers (`app/services/telegram/entity_logger.py`) -/

/-- `MESSAGE_TYPE_ATTRIBUTE_MAP`, in source (insertion) order. -/
def messageTypeAttributeMap : List (String × String) :=
  [("text", "text"), ("animation", "animation"), ("audio", "audio"),
   ("document", "document"), ("paid_media", "paid_media"),
   ("photo", "photo"), ("sticker", "sticker"), ("story", "story"),
   ("video", "video"), ("video_note", "video_note"), ("voice", "voice"),
   ("checklist", "checklist"), ("contact", "contact"), ("dice", "dice"),
   ("game", "game"), ("poll", "poll"), ("venue", "venue"),
   ("location", "location"), ("invoice", "invoice"),
   ("giveaway", "giveaway"), ("passport_data", "passport")]

/-- `getattr(message, attr, None)` truthiness, read through the object's
`to_dict()` rendering (python-telegram-bot omits unset attributes from
`to_dict()` and renders set ones with the same truthiness). -/
def msgAttrTruthy (m : MessageE) (attr : String) : Bool :=
  ((m.toDict.getKey attr).getD JVal.null).truthy

/-- `get_message_type`: first truthy content attribute wins, else the
message is a service message. -/
def getMessageType (m : MessageE) : String :=
  match messageTypeAttributeMap.find? (fun p => msgAttrTruthy m p.1) with
  | some p => p.2
  | none => "service"

def fileExcludedFields : List String :=
  ["file_unique_id", "file_id", "file_size", "mime_type", "file_type"]

def chatExcludedFields : List String :=
  ["id", "type", "title", "username", "first_name", "last_name",
   "is_forum", "is_direct_messages", "personal_chat", "parent_chat",
   "pinned_message", "photo"]

/-- `get_message_excluded_fields`: the static exclusion set, minus the
four service-flag fields when they are truthy on this message. -/
def getMessageExcludedFields (m : MessageE) : List String :=
  let base :=
    ["message_id", "chat", "message_thread_id", "text", "caption", "from",
     "sender_chat", "sender_boost_count", "sender_business_bot", "date",
     "edit_date", "business_connection_id", "is_topic_message",
     "is_automatic_forward", "has_media_spoiler", "has_protected_content",
     "is_from_offline", "is_paid_post", "author_signature",
     "paid_star_count", "delete_chat_photo", "group_chat_created",
     "supergroup_chat_created", "channel_chat_created"]
  let base := if msgAttrTruthy m "delete_chat_photo" then
    base.filter (fun f => f ≠ "delete_chat_photo") else base
  let base := if msgAttrTruthy m "group_chat_created" then
    base.filter (fun f => f ≠ "group_chat_created") else base
  let base := if msgAttrTruthy m "supergroup_chat_created" then
    base.filter (fun f => f ≠ "supergroup_chat_created") else base
  let base := if msgAttrTruthy m "channel_chat_created" then
    base.filter (fun f => f ≠ "channel_chat_created") else base
  base

/-- The overflow map of a message:
`remove_fields(message.to_dict(), excluded, ("file_id",)) or null()`. -/
def messageOtherData (m : MessageE) : Option JVal :=
  match m.toDict with
  | JVal.obj fields =>
    orNull (removeFields fields (getMessageExcludedFields m) ["file_id"])
  | j => some j

/-- One entry of `bulk_prepare_messages` (also the row built by
`make_message_db_object`, whose field list is identical). -/
def prepareMessage (m : MessageE) : MsgRow :=
  { id := m.id
    chatId := m.chatId
    messageType := getMessageType m
    messageThreadId := m.messageThreadId
    text := m.text
    caption := m.caption
    fromUserId := m.fromUserId
    senderChatId := m.senderChatId
    senderBoostCount := m.senderBoostCount
    senderBusinessBotId := m.senderBusinessBotId
    date := m.date
    editDate := m.editDate
    businessConnectionId := m.businessConnectionId
    isTopicMessage := m.isTopicMessage.getD false
    isAutomaticForward := m.isAutomaticForward.getD false
    hasMediaSpoiler := m.hasMediaSpoiler.getD false
    hasProtectedContent := m.hasProtectedContent.getD false
    isFromOffline := m.isFromOffline.getD false
    isPaidPost := m.isPaidPost.getD false
    authorSignature := m.authorSignature
    paidStarCount := m.paidStarCount
    otherData := messageOtherData m }

/-- `ChatType(value)` raises `ValueError` on an unknown discriminant. -/
def chatTypeValid (s : String) : Bool :=
  s = "private" ∨ s = "group" ∨ s = "supergroup" ∨ s = "channel"

/-! ### Existence Resolver (`check_entities`) -/

/-- One row of the unioned existence query. -/
structure CheckRow where
  chatId : Option Int := none
  userId : Option Int := none
  messageId : Option Int := none
  fileUniqueId : Option String := none
  rowExists : Bool
  botRelation : Option Bool := none
  etype : Nat
deriving Repr, DecidableEq, Inhabited

/-- `non_empty_cte_data` returns `data or [(None,)]`: an empty key list
degrades to the single row `(None,)`.  For a one-column VALUES table
that is a well-formed all-NULL row, and this helper models those uses;
the two-column `input_messages` table is handled at its use site, where
the 1-tuple does not fit. -/
def nonEmptyCteData {α : Type} (data : List α) (sentinel : α) : List α :=
  if data.isEmpty then [sentinel] else data

/-- The rows of the two-column `input_messages` VALUES table for a
non-empty message key set. -/
def msgCteData (messages : List (Int × Int)) :
    List (Option Int × Option Int) :=
  messages.map (fun p => (some p.1, some p.2))

/-- `check_entities`.  Each of the four per-kind SELECTs references its
input VALUES CTE together with the aliased storage table(s), but states
no join condition and no WHERE clause, so SQL semantics renders each as a
cross join of its FROM elements; `IS NOT NULL` is then evaluated per
joined row on non-nullable storage columns, and the `bot_id` parameter is
referenced by no clause at all.  With an empty message key set,
`non_empty_cte_data` supplies the 1-tuple `(None,)` for the two-column
`(chat_id, message_id)` VALUES table: the statement fails with a
column-count mismatch instead of executing, modelled as `none`. -/
def checkEntities (db : DB) (chatIds : List Int) (userIds : List Int)
    (messages : List (Int × Int)) (fileIds : List String) (_botId : Int) :
    Option (List CheckRow) :=
  if messages.isEmpty then none
  else
  let chatCte : List (Option Int) := nonEmptyCteData (chatIds.map some) none
  let userCte : List (Option Int) := nonEmptyCteData (userIds.map some) none
  let msgCte : List (Option Int × Option Int) := msgCteData messages
  let fileCte : List (Option String) := nonEmptyCteData (fileIds.map some) none
  let chatRows := chatCte.flatMap (fun k => db.chats.map (fun tc =>
    ({ chatId := k, rowExists := (some tc.id).isSome, etype := 1 } : CheckRow)))
  let userRows := userCte.flatMap (fun k => db.users.map (fun tu =>
    ({ userId := k, rowExists := (some tu.id).isSome, etype := 2 } : CheckRow)))
  let msgRows := msgCte.flatMap (fun k => db.messages.flatMap (fun tm =>
    db.botMessages.map (fun bm =>
      ({ chatId := k.1, messageId := k.2, rowExists := (some tm.id).isSome,
         botRelation := some (some bm.messageId).isSome,
         etype := 3 } : CheckRow))))
  let fileRows := fileCte.flatMap (fun k => db.files.flatMap (fun tf =>
    db.botFiles.map (fun bf =>
      ({ fileUniqueId := k, rowExists := (some tf.fileUniqueId).isSome,
         botRelation := some (some bf.fileUniqueId).isSome,
         etype := 4 } : CheckRow))))
  some (chatRows ++ userRows ++ msgRows ++ fileRows)

/-! ### `collect_entities` -/

/-- Entity payload of a found node, `none` if the node does not carry the
expected kind (cannot happen for nodes found by the kind's predicate). -/
def nodeUser (g : PyGraph) (i : Nat) : Option UserE :=
  match (g.get i).entity with | EntityData.user u => some u | _ => none

def nodeChat (g : PyGraph) (i : Nat) : Option ChatE :=
  match (g.get i).entity with | EntityData.chat c => some c | _ => none

def nodeMessage (g : PyGraph) (i : Nat) : Option MessageE :=
  match (g.get i).entity with | EntityData.message m => some m | _ => none

/-- The four deduplicated maps produced by `collect_entities`. -/
structure CollectedEntities where
  users : List (Int × UserE) := []
  chats : List (Int × ChatE) := []
  messages : List ((Int × Int) × MessageE) := []
  filesJson : List (String × JVal) := []
deriving Repr, Inhabited

def collectEntities (g : PyGraph) (root : Nat) : CollectedEntities :=
  let users := (findInstances g isUserObj root).filterMap (nodeUser g)
  let uniqueUsers := dedupKeyed (users.map (fun u => (u.id, u)))
  let chats := (findInstances g isChatObj root).filterMap (nodeChat g)
  let uniqueChats := dedupKeyed (chats.map (fun c => (c.id, c)))
  let messages := (findInstances g isMessageObj root).filterMap (nodeMessage g)
  let uniqueMessages := dedupKeyed (messages.map (fun m => ((m.chatId, m.id), m)))
  let files := (findObjectsWithAttributes g root).filterMap
    (fun i => ((g.get i).fileAttrs).map (fun fa => (fa.1, i)))
  let uniqueFiles := dedupKeyed files
  -- drop files of unrecognized class (`get_file_type` is None or the
  -- object is not a TelegramObject); tag the rest in their to_dict form
  let uniqueFilesJson := uniqueFiles.filterMap (fun p =>
    match (g.get p.2).fileType with
    | none => none
    | some ft => some (p.1, (g.get p.2).fileDict.setKey "file_type" (JVal.str ft)))
  { users := uniqueUsers, chats := uniqueChats,
    messages := uniqueMessages, filesJson := uniqueFilesJson }

/-! ### Reconciler (`log_object`) -/

/-- The six bulk batches accumulated by the `check_result` loop. -/
structure Batches where
  newUsers : List UserE := []
  newChats : List ChatE := []
  newMessages : List MessageE := []
  newBotMessages : List (Int × Int) := []
  newFiles : List JVal := []
  newBotFiles : List (String × String) := []
deriving Repr, Inhabited

def optBoolTruthy : Option Bool → Bool
  | none => false
  | some b => b

/-- One iteration of the partition loop in `log_object` (lines 641-686):
rows with a falsy key are ignored; otherwise the key is looked up in the
corresponding deduplicated map (a miss is a `KeyError`, modelled as
`none`) and the entity lands in the insert / associate batches according
to the row's flags. -/
def partitionStep (ce : CollectedEntities) (acc : Batches) (row : CheckRow) :
    Option Batches :=
  if row.etype = 2 then
    if optIntTruthy row.userId then
      match ce.users.lookup (row.userId.getD 0) with
      | none => none
      | some u =>
        some (if !row.rowExists then
          { acc with newUsers := acc.newUsers ++ [u] } else acc)
    else some acc
  else if row.etype = 1 then
    if optIntTruthy row.chatId then
      match ce.chats.lookup (row.chatId.getD 0) with
      | none => none
      | some c =>
        some (if !row.rowExists then
          { acc with newChats := acc.newChats ++ [c] } else acc)
    else some acc
  else if row.etype = 3 then
    if optIntTruthy row.chatId ∧ optIntTruthy row.messageId then
      let pk := (row.chatId.getD 0, row.messageId.getD 0)
      match ce.messages.lookup pk with
      | none => none
      | some m =>
        let acc := if !row.rowExists then
          { acc with newMessages := acc.newMessages ++ [m] } else acc
        some (if !optBoolTruthy row.botRelation then
          { acc with newBotMessages := acc.newBotMessages ++ [pk] } else acc)
    else some acc
  else if row.etype = 4 then
    if optStrTruthy row.fileUniqueId then
      match ce.filesJson.lookup (row.fileUniqueId.getD "") with
      | none => none
      | some fileObj =>
        let acc := if !row.rowExists then
          { acc with newFiles := acc.newFiles ++ [fileObj] } else acc
        if !optBoolTruthy row.botRelation then
          -- `file_id = file_obj["file_id"]`
          match fileObj.getKey "file_id" with
          | some (JVal.str fid) =>
            some { acc with newBotFiles :=
              acc.newBotFiles ++ [(row.fileUniqueId.getD "", fid)] }
          | _ => none
        else some acc
    else some acc
  else some acc

def partitionCheckResult (ce : CollectedEntities) (rows : List CheckRow) :
    Option Batches :=
  rows.foldlM (partitionStep ce) {}

/-! ### Bulk mutations -/

def bulkInsertUsers (db : DB) (newUsers : List UserE) : DB :=
  { db with users := db.users ++ newUsers.map (fun u =>
    { id := u.id, firstName := u.firstName, lastName := u.lastName,
      username := u.username, languageCode := u.languageCode,
      isPremium := u.isPremium.getD false, isBot := u.isBot }) }

/-- `bulk_insert_chats`; `ChatType(c.type)` raises on an unknown type
discriminant, modelled as `none`. -/
def bulkInsertChats (db : DB) (newChats : List ChatE) : Option DB :=
  if newChats.all (fun c => chatTypeValid c.ctype) then
    some { db with chats := db.chats ++ newChats.map (fun c =>
      { id := c.id, ctype := c.ctype, title := c.title,
        username := c.username, firstName := c.firstName,
        lastName := c.lastName, isForum := c.isForum.getD false,
        isDirectMessages := c.isDirectMessages.getD false }) }
  else none

def bulkInsertMessages (db : DB) (newMessages : List MessageE) : DB :=
  { db with messages := db.messages ++ newMessages.map prepareMessage }

/-- `bulk_prepare_files` + `bulk_insert_files`; reading the mandatory
dict entries of a prepared file JSON can raise `KeyError`. -/
def prepareFile (file : JVal) : Option FileRow :=
  match file.getKey "file_unique_id", file.getKey "file_type" with
  | some (JVal.str fuid), some (JVal.str ftype) =>
    some { fileUniqueId := fuid, fileType := ftype,
           fileSize := (file.getKey "file_size").bind JVal.asInt,
           mimeType := (file.getKey "mime_type").bind JVal.asStr,
           otherData :=
             match file with
             | JVal.obj fields =>
               orNull (removeFieldsTop fields fileExcludedFields)
             | j => some j }
  | _, _ => none

def bulkInsertFiles (db : DB) (newFiles : List JVal) : Option DB :=
  match newFiles.mapM prepareFile with
  | none => none
  | some rows => some { db with files := db.files ++ rows }

def bulkInsertBotMessages (db : DB) (data : List (Int × Int)) (botId : Int) : DB :=
  { db with botMessages := db.botMessages ++ data.map (fun p =>
    { botId := botId, chatId := p.1, messageId := p.2 }) }

def bulkInsertBotFiles (db : DB) (data : List (String × String)) (botId : Int) : DB :=
  { db with botFiles := db.botFiles ++ data.map (fun p =>
    { botId := botId, fileUniqueId := p.1, fileId := p.2 }) }

/-! ### `log_object` and `update_message` -/

/-- `log_object`: collect, resolve existence in one query, partition,
apply the (at most six) bulk statements, and report which batches were
non-empty.  Exceptions escaping any step are `none` (the delivery
pipeline swallows them and the transaction is not committed). -/
def logObject (db : DB) (g : PyGraph) (root : Nat) (botId : Int) :
    Option (DB × (Bool × Bool × Bool × Bool × Bool × Bool)) :=
  let ce := collectEntities g root
  match checkEntities db (ce.chats.map Prod.fst)
    (ce.users.map Prod.fst) (ce.messages.map Prod.fst)
    (ce.filesJson.map Prod.fst) botId with
  | none => none
  | some checkResult =>
  match partitionCheckResult ce checkResult with
  | none => none
  | some b =>
    let db := if !b.newUsers.isEmpty then bulkInsertUsers db b.newUsers else db
    match (if !b.newChats.isEmpty then bulkInsertChats db b.newChats else some db) with
    | none => none
    | some db =>
      let db := if !b.newMessages.isEmpty then bulkInsertMessages db b.newMessages else db
      let db := if !b.newBotMessages.isEmpty then
        bulkInsertBotMessages db b.newBotMessages botId else db
      match (if !b.newFiles.isEmpty then bulkInsertFiles db b.newFiles else some db) with
      | none => none
      | some db =>
        let db := if !b.newBotFiles.isEmpty then
          bulkInsertBotFiles db b.newBotFiles botId else db
        some (db, (!b.newUsers.isEmpty, !b.newChats.isEmpty,
          !b.newMessages.isEmpty, !b.newBotMessages.isEmpty,
          !b.newFiles.isEmpty, !b.newBotFiles.isEmpty))

/-- The UPDATE statement of `update_message`: the prepared dict minus its
`id` and `chat_id` entries, applied to the rows matching the composite
key (the SET clause therefore never touches the key columns). -/
def applyMessageEdit (db : DB) (m : MessageE) : DB :=
  let d := prepareMessage m
  { db with messages := db.messages.map (fun r =>
    if r.id = m.id ∧ r.chatId = m.chatId then
      { r with messageType := d.messageType,
               messageThreadId := d.messageThreadId, text := d.text,
               caption := d.caption, fromUserId := d.fromUserId,
               senderChatId := d.senderChatId,
               senderBoostCount := d.senderBoostCount,
               senderBusinessBotId := d.senderBusinessBotId,
               date := d.date, editDate := d.editDate,
               businessConnectionId := d.businessConnectionId,
               isTopicMessage := d.isTopicMessage,
               isAutomaticForward := d.isAutomaticForward,
               hasMediaSpoiler := d.hasMediaSpoiler,
               hasProtectedContent := d.hasProtectedContent,
               isFromOffline := d.isFromOffline,
               isPaidPost := d.isPaidPost,
               authorSignature := d.authorSignature,
               paidStarCount := d.paidStarCount,
               otherData := d.otherData }
    else r) }

/-! ### Profile Refresher and request logger
(`app/services/telegram/logger.py`) -/

def JVal.asBool : JVal → Option Bool
  | JVal.bool b => some b
  | _ => none

/-- Render an optional column value into a `to_dict` entry. -/
def jOptInt : Option Int → JVal
  | none => JVal.null
  | some n => JVal.int n

def jOptStr : Option String → JVal
  | none => JVal.null
  | some s => JVal.str s

/-- `telegram.ChatPhoto` (all four attributes are mandatory). -/
structure ChatPhotoE where
  smallFileId : String
  smallFileUniqueId : String
  bigFileId : String
  bigFileUniqueId : String
deriving Repr, DecidableEq, Inhabited

/-- `telegram.ChatFullInfo`, restricted to the attributes the logger
reads; `toDict` is its `to_dict()` rendering. -/
structure ChatFullInfoE where
  id : Int
  ctype : String
  title : Option String := none
  username : Option String := none
  firstName : Option String := none
  lastName : Option String := none
  isForum : Option Bool := none
  isDirectMessages : Option Bool := none
  personalChat : Option ChatE := none
  parentChat : Option ChatE := none
  pinnedMessageId : Option Int := none
  photo : Option ChatPhotoE := none
  toDict : JVal := JVal.obj []
deriving Repr, Inhabited

/-- `log_me`: an UPDATE of the name/locale columns of the row whose id
matches; it contains no INSERT branch and touches no other column. -/
def logMe (db : DB) (user : UserE) : DB :=
  { db with users := db.users.map (fun r =>
    if r.id = user.id then
      { r with firstName := user.firstName, lastName := user.lastName,
               username := user.username,
               languageCode := user.languageCode }
    else r) }

/-- `log_chats`: per chat, insert when the id is unknown, else overwrite
the base profile columns; `ChatType(chat.type)` raises on an unknown
discriminant (modelled as `none`). -/
def logChatsStep (db : DB) (chat : ChatE) : Option DB :=
  if chatTypeValid chat.ctype then
    if (db.chats.find? (fun r => r.id = chat.id)).isSome then
      some { db with chats := db.chats.map (fun r =>
        if r.id = chat.id then
          { r with ctype := chat.ctype, title := chat.title,
                   username := chat.username, firstName := chat.firstName,
                   lastName := chat.lastName,
                   isForum := chat.isForum.getD false,
                   isDirectMessages := chat.isDirectMessages.getD false }
        else r) }
    else
      some { db with chats := db.chats ++
        [{ id := chat.id, ctype := chat.ctype, title := chat.title,
           username := chat.username, firstName := chat.firstName,
           lastName := chat.lastName, isForum := chat.isForum.getD false,
           isDirectMessages := chat.isDirectMessages.getD false }] }
  else none

def logChats (db : DB) (chats : List ChatE) : Option DB :=
  chats.foldlM logChatsStep db

/-- LEFT OUTER JOIN helper: the matching rows, or a single NULL row. -/
def leftJoin {β : Type} (hits : List β) : List (Option β) :=
  if hits.isEmpty then [none] else hits.map some

/-- `chat_photo_check_entities`: this query does carry its two
`outerjoin` conditions (file id equality, and bot-file equality filtered
to the current bot). -/
def chatPhotoCheckEntities (db : DB) (photo : ChatPhotoE) (botId : Int) :
    List (String × Bool × Bool) :=
  let cte := [photo.smallFileUniqueId, photo.bigFileUniqueId]
  cte.flatMap (fun fuid =>
    (leftJoin (db.files.filter (fun tf => tf.fileUniqueId = fuid))).flatMap
      (fun tf? =>
        (leftJoin (db.botFiles.filter (fun bf =>
            bf.fileUniqueId = fuid ∧ bf.botId = botId))).map (fun bf? =>
          (fuid, tf?.isSome, bf?.isSome))))

/-- Python dict construction/overwrite for a `Dict[str, str]`. -/
def assocUpsert (l : List (String × String)) (k v : String) :
    List (String × String) :=
  if (l.lookup k).isSome then
    l.map (fun p => if p.1 = k then (k, v) else p)
  else l ++ [(k, v)]

/-- `insert_chat_photo_entities`. -/
def insertChatPhotoEntities (db : DB) (rows : List (String × Bool × Bool))
    (botFilesMap : List (String × String)) (botId : Int) : Option DB :=
  let filesJson := rows.filterMap (fun r =>
    if !r.2.1 then
      some (JVal.obj [("file_unique_id", JVal.str r.1),
                      ("file_type", JVal.str "chat_photo")])
    else none)
  let insertBotFiles := rows.filterMap (fun r =>
    if !r.2.2 then
      match botFilesMap.lookup r.1 with
      | some fid => if fid ≠ "" then some (r.1, fid) else none
      | none => none
    else none)
  match (if !filesJson.isEmpty then bulkInsertFiles db filesJson else some db) with
  | none => none
  | some db =>
    some (if !insertBotFiles.isEmpty then
      bulkInsertBotFiles db insertBotFiles botId else db)

/-- `insert_chat_photo_if_not_exist`. -/
def insertChatPhotoIfNotExist (db : DB) (photo : ChatPhotoE) (botId : Int) :
    Option DB :=
  let botFilesMap := assocUpsert
    (assocUpsert [] photo.smallFileUniqueId photo.smallFileId)
    photo.bigFileUniqueId photo.bigFileId
  insertChatPhotoEntities db (chatPhotoCheckEntities db photo botId)
    botFilesMap botId

/-- `other_data` of a full chat info snapshot:
`remove_fields(chat.to_dict(), CHAT_EXCLUDED_FIELDS)` (top level only,
stored as-is, an empty dict included). -/
def chatOtherData (chat : ChatFullInfoE) : Option JVal :=
  match chat.toDict with
  | JVal.obj fields =>
    some (JVal.obj (removeFieldsTop fields chatExcludedFields))
  | j => some j

/-- The row written for a full chat info snapshot (shared field list of
the insert and the overwrite branches of `log_chat_full_info`). -/
def chatFullInfoRow (chat : ChatFullInfoE) : ChatRow :=
  { id := chat.id
    ctype := chat.ctype
    title := chat.title
    username := chat.username
    firstName := chat.firstName
    lastName := chat.lastName
    isForum := chat.isForum.getD false
    isDirectMessages := chat.isDirectMessages.getD false
    personalChatId := chat.personalChat.map (fun c => c.id)
    parentChatId := chat.parentChat.map (fun c => c.id)
    pinnedMessageId := chat.pinnedMessageId
    photoSmallId := chat.photo.map (fun p => p.smallFileUniqueId)
    photoBigId := chat.photo.map (fun p => p.bigFileUniqueId)
    otherData := chatOtherData chat }

/-- `log_new_chat_full_info`: avatar file upsert, then an INSERT carrying
every column of the snapshot. -/
def logNewChatFullInfo (db : DB) (chat : ChatFullInfoE) (botId : Int) :
    Option DB :=
  match (match chat.photo with
         | some photo => insertChatPhotoIfNotExist db photo botId
         | none => some db) with
  | none => none
  | some db =>
    if chatTypeValid chat.ctype then
      some { db with chats := db.chats ++ [chatFullInfoRow chat] }
    else none

/-- `log_chat_full_info`: insert when the id is unknown, otherwise
overwrite every mutable column with the snapshot's value. -/
def logChatFullInfo (db : DB) (chat : ChatFullInfoE) (botId : Int) :
    Option DB :=
  match db.chats.find? (fun r => r.id = chat.id) with
  | none => logNewChatFullInfo db chat botId
  | some _ =>
    match (match chat.photo with
           | some photo => insertChatPhotoIfNotExist db photo botId
           | none => some db) with
    | none => none
    | some db =>
      if chatTypeValid chat.ctype then
        some { db with chats := db.chats.map (fun r =>
          if r.id = chat.id then { chatFullInfoRow chat with id := r.id }
          else r) }
      else none

/-- `fetch_new_chat_info`: the live `get_chat` call is an external
collaborator, supplied as the oracle `fetched` (`none` = the fetch
raised); its result is persisted through `log_new_chat_full_info`. -/
def fetchNewChatInfo (db : DB) (fetched : Option ChatFullInfoE)
    (botId : Int) : Option (ChatFullInfoE × DB) :=
  match fetched with
  | none => none
  | some info =>
    match logNewChatFullInfo db info botId with
    | none => none
    | some db => some (info, db)

/-! ### `TelegramMessage.to_dict` (`app/db/models/telegram/message.py`)
and the external decode step -/

/-- `TelegramMessage.to_dict()`: the fixed column rendering, then
`data.update(self.other_data)` when the overflow map is truthy. -/
def toDictRow (r : MsgRow) : JVal :=
  let base : List (String × JVal) :=
    [("message_id", JVal.int r.id),
     ("chat", JVal.obj [("id", JVal.int r.chatId), ("type", JVal.str "")]),
     ("message_thread_id", jOptInt r.messageThreadId),
     ("message_type", JVal.str r.messageType),
     ("text", jOptStr r.text),
     ("caption", jOptStr r.caption),
     ("from", if optIntTruthy r.fromUserId then
        JVal.obj [("id", jOptInt r.fromUserId), ("first_name", JVal.str ""),
                  ("is_bot", JVal.bool false)] else JVal.null),
     ("sender_chat", if optIntTruthy r.senderChatId then
        JVal.obj [("id", jOptInt r.senderChatId), ("first_name", JVal.str ""),
                  ("is_bot", JVal.bool false)] else JVal.null),
     ("sender_boost_count", jOptInt r.senderBoostCount),
     ("sender_business_bot", if optIntTruthy r.senderBusinessBotId then
        JVal.obj [("id", jOptInt r.senderBusinessBotId),
                  ("first_name", JVal.str ""), ("is_bot", JVal.bool true)]
        else JVal.null),
     ("date", JVal.int r.date),
     ("edit_date", jOptInt r.editDate),
     ("business_connection_id", jOptStr r.businessConnectionId),
     ("is_topic_message", JVal.bool r.isTopicMessage),
     ("is_automatic_forward", JVal.bool r.isAutomaticForward),
     ("has_media_spoiler", JVal.bool r.hasMediaSpoiler),
     ("has_protected_content", JVal.bool r.hasProtectedContent),
     ("is_from_offline", JVal.bool r.isFromOffline),
     ("is_paid_post", JVal.bool r.isPaidPost),
     ("author_signature", jOptStr r.authorSignature),
     ("paid_star_count", jOptInt r.paidStarCount)]
  match r.otherData with
  | some (JVal.obj extra) =>
    JVal.obj (extra.foldl (fun fs p => JVal.setKeyFields fs p.1 p.2) base)
  | _ => JVal.obj base

/-- `telegram.Message.de_json` (external decode step, modelled on the
attributes the engine reads): requires a dict carrying `message_id`, a
`chat` dict with an `id`, and a `date`; `toDict` is the decoded object's
`to_dict()` rendering, carried as the input dict (python-telegram-bot
drops `None`-valued entries from it, but every such entry is either
excluded from the overflow computation or falsy either way). -/
def deJsonMessage (j : JVal) : Option MessageE :=
  match (j.getKey "message_id").bind JVal.asInt,
      (j.getKey "chat").bind (fun c => (c.getKey "id").bind JVal.asInt),
      (j.getKey "date").bind JVal.asInt with
  | some mid, some cid, some date =>
    some { id := mid
           chatId := cid
           messageThreadId := (j.getKey "message_thread_id").bind JVal.asInt
           text := (j.getKey "text").bind JVal.asStr
           caption := (j.getKey "caption").bind JVal.asStr
           fromUserId := (j.getKey "from").bind
             (fun u => (u.getKey "id").bind JVal.asInt)
           senderChatId := (j.getKey "sender_chat").bind
             (fun c => (c.getKey "id").bind JVal.asInt)
           senderBoostCount := (j.getKey "sender_boost_count").bind JVal.asInt
           senderBusinessBotId := (j.getKey "sender_business_bot").bind
             (fun u => (u.getKey "id").bind JVal.asInt)
           date := date
           editDate := (j.getKey "edit_date").bind JVal.asInt
           businessConnectionId :=
             (j.getKey "business_connection_id").bind JVal.asStr
           isTopicMessage := (j.getKey "is_topic_message").bind JVal.asBool
           isAutomaticForward :=
             (j.getKey "is_automatic_forward").bind JVal.asBool
           hasMediaSpoiler := (j.getKey "has_media_spoiler").bind JVal.asBool
           hasProtectedContent :=
             (j.getKey "has_protected_content").bind JVal.asBool
           isFromOffline := (j.getKey "is_from_offline").bind JVal.asBool
           isPaidPost := (j.getKey "is_paid_post").bind JVal.asBool
           authorSignature := (j.getKey "author_signature").bind JVal.asStr
           paidStarCount := (j.getKey "paid_star_count").bind JVal.asInt
           toDict := j }
  | _, _, _ => none

/-- `telegram.Chat` decoded from a nested dict (external decode step). -/
def deJsonChatNode (j : JVal) : ChatE :=
  { id := ((j.getKey "id").bind JVal.asInt).getD 0
    ctype := ((j.getKey "type").bind JVal.asStr).getD ""
    title := (j.getKey "title").bind JVal.asStr
    username := (j.getKey "username").bind JVal.asStr
    firstName := (j.getKey "first_name").bind JVal.asStr
    lastName := (j.getKey "last_name").bind JVal.asStr
    isForum := (j.getKey "is_forum").bind JVal.asBool
    isDirectMessages := (j.getKey "is_direct_messages").bind JVal.asBool }

/-- `telegram.User` decoded from a nested dict (external decode step). -/
def deJsonUserNode (j : JVal) : UserE :=
  { id := ((j.getKey "id").bind JVal.asInt).getD 0
    firstName := ((j.getKey "first_name").bind JVal.asStr).getD ""
    lastName := (j.getKey "last_name").bind JVal.asStr
    username := (j.getKey "username").bind JVal.asStr
    languageCode := (j.getKey "language_code").bind JVal.asStr
    isPremium := (j.getKey "is_premium").bind JVal.asBool
    isBot := ((j.getKey "is_bot").bind JVal.asBool).getD false }

/-- `telegram.User.de_json` for a top-level payload (`getMe`). -/
def deJsonUser (j : JVal) : Option UserE :=
  match (j.getKey "id").bind JVal.asInt,
      (j.getKey "first_name").bind JVal.asStr with
  | some _, some _ => some (deJsonUserNode j)
  | _, _ => none

def deJsonChatPhoto (j : JVal) : Option ChatPhotoE :=
  match (j.getKey "small_file_id").bind JVal.asStr,
      (j.getKey "small_file_unique_id").bind JVal.asStr,
      (j.getKey "big_file_id").bind JVal.asStr,
      (j.getKey "big_file_unique_id").bind JVal.asStr with
  | some sfi, some sfu, some bfi, some bfu =>
    some { smallFileId := sfi, smallFileUniqueId := sfu,
           bigFileId := bfi, bigFileUniqueId := bfu }
  | _, _, _, _ => none

/-- `telegram.ChatFullInfo.de_json` (external decode step). -/
def deJsonChatFullInfo (j : JVal) : Option ChatFullInfoE :=
  match (j.getKey "id").bind JVal.asInt,
      (j.getKey "type").bind JVal.asStr with
  | some cid, some ctype =>
    match (match j.getKey "photo" with
           | none => some none
           | some pj => (deJsonChatPhoto pj).map some) with
    | none => none
    | some photo =>
      some { id := cid
             ctype := ctype
             title := (j.getKey "title").bind JVal.asStr
             username := (j.getKey "username").bind JVal.asStr
             firstName := (j.getKey "first_name").bind JVal.asStr
             lastName := (j.getKey "last_name").bind JVal.asStr
             isForum := (j.getKey "is_forum").bind JVal.asBool
             isDirectMessages :=
               (j.getKey "is_direct_messages").bind JVal.asBool
             personalChat := (j.getKey "personal_chat").map deJsonChatNode
             parentChat := (j.getKey "parent_chat").map deJsonChatNode
             pinnedMessageId := (j.getKey "pinned_message").bind
               (fun p => (p.getKey "message_id").bind JVal.asInt)
             photo := photo
             toDict := j }
  | _, _ => none

/-! ### Decoded-object graphs fed back into the extractor

`log_object` receives freshly decoded objects (`Message.de_json`,
`Update.de_json`); the extractor then walks them.  These builders lay the
decoded objects out as `PyGraph` nodes: each message object carries its
`chat` and, when present, its `from`/`sender_chat` sub-objects as
children (fresh objects, so no sharing between two decoded messages). -/

def messageChildEntities (m : MessageE) : List EntityData :=
  [EntityData.chat (deJsonChatNode ((m.toDict.getKey "chat").getD (JVal.obj [])))]
  ++ (match m.toDict.getKey "from" with
      | some (JVal.obj fs) => [EntityData.user (deJsonUserNode (JVal.obj fs))]
      | _ => [])
  ++ (match m.toDict.getKey "sender_chat" with
      | some (JVal.obj fs) => [EntityData.chat (deJsonChatNode (JVal.obj fs))]
      | _ => [])

/-- The node block of one decoded message: the message object at `base`,
followed by its entity children. -/
def messageNodes (m : MessageE) (base : Nat) : List PyObj :=
  let kids := messageChildEntities m
  ({ children := (List.range kids.length).map (fun t => base + 1 + t),
     entity := EntityData.message m } : PyObj)
  :: kids.map (fun e => ({ entity := e } : PyObj))

/-- Lay out consecutive message blocks from position `pos`; returns the
root index of each block and the node list. -/
def messageBlocks : List MessageE → Nat → List Nat × List PyObj
  | [], _ => ([], [])
  | m :: rest, pos =>
    let nodes := messageNodes m pos
    let (roots, more) := messageBlocks rest (pos + nodes.length)
    (pos :: roots, nodes ++ more)

/-- The object graph of a Python list of decoded messages. -/
def graphOfMessages (msgs : List MessageE) : PyGraph × Nat :=
  let (roots, nodes) := messageBlocks msgs 1
  (⟨({ children := roots } : PyObj) :: nodes⟩, 0)

/-- The object graph of a single decoded message payload. -/
def graphOfMessage (m : MessageE) : PyGraph × Nat :=
  (⟨messageNodes m 0⟩, 0)

/-- `update_message(db, message, bot_id, skip_log)`.  The payload handed
to the inner `log_object` call is the message object itself (laid out by
`graphOfMessage`).  The second component records whether the edit UPDATE
statement was executed (it is short-circuited when `log_object` reports
`res[3]`, a non-empty bot-message association batch). -/
def updateMessage (db : DB) (m : MessageE) (botId : Int)
    (skipLog : Bool) : Option (DB × Bool) :=
  if !skipLog then
    match logObject db (graphOfMessage m).1 (graphOfMessage m).2 botId with
    | none => none
    | some (db, res) =>
      if res.2.2.2.1 then some (db, false)
      else some (applyMessageEdit db m, true)
  else
    some (applyMessageEdit db m, true)

/-- `telegram.Update` (external decode step): the raw update dict; all
message-bearing fields must decode (else `Update.de_json` raises). -/
structure UpdateE where
  raw : JVal
deriving Repr, Inhabited

def updateMessageKeys : List String :=
  ["message", "edited_message", "channel_post", "edited_channel_post",
   "business_message", "edited_business_message"]

def deJsonUpdate (j : JVal) : Option UpdateE :=
  match (j.getKey "update_id").bind JVal.asInt with
  | none => none
  | some _ =>
    if updateMessageKeys.all (fun k =>
        match j.getKey k with
        | some mj => (deJsonMessage mj).isSome
        | none => true) then
      some { raw := j }
    else none

/-- `update.edited_message or update.edited_channel_post or
update.edited_business_message` selection in source order. -/
def updateEditedMessage (u : UpdateE) : Option MessageE :=
  match u.raw.getKey "edited_message" with
  | some mj => deJsonMessage mj
  | none =>
    match u.raw.getKey "edited_channel_post" with
    | some mj => deJsonMessage mj
    | none =>
      match u.raw.getKey "edited_business_message" with
      | some mj => deJsonMessage mj
      | none => none

def updateContainedMessages (u : UpdateE) : List MessageE :=
  updateMessageKeys.filterMap (fun k =>
    (u.raw.getKey k).bind deJsonMessage)

/-- Node blocks of consecutive decoded updates. -/
def updateBlocks : List UpdateE → Nat → List Nat × List PyObj
  | [], _ => ([], [])
  | u :: rest, pos =>
    let (msgRoots, msgNodes) := messageBlocks (updateContainedMessages u) (pos + 1)
    let nodes := ({ children := msgRoots } : PyObj) :: msgNodes
    let (roots, more) := updateBlocks rest (pos + nodes.length)
    (pos :: roots, nodes ++ more)

/-- The object graph of a Python list of decoded updates. -/
def graphOfUpdates (updates : List UpdateE) : PyGraph × Nat :=
  let (roots, nodes) := updateBlocks updates 1
  (⟨({ children := roots } : PyObj) :: nodes⟩, 0)

/-! ### The copy / forward synthesis branches of `log_telegram_request` -/

/-- `chat_id.lstrip("@")`. -/
def stripAts (s : String) : String :=
  ⟨s.data.dropWhile (fun c => c = '@')⟩

/-- `column == value` comparison between a BigInteger column and a raw
request value (a non-integer never compares equal). -/
def intMatches (j : JVal) (n : Int) : Bool :=
  j.asInt = some n

/-- Destination-chat resolution rows for the username form: the stored
messages matching the source key, left-joined against the chats matching
the stripped username. -/
def usernameJoinRows (db : DB) (stripped : String)
    (msgFilter : MsgRow → Bool) : List (MsgRow × Option Int) :=
  (db.messages.filter msgFilter).flatMap (fun m =>
    (leftJoin (db.chats.filter (fun c => c.username = some stripped))).map
      (fun c? => (m, c?.map (fun c => c.id))))

/-- `{msg.id: msg for msg in original_db_msgs}` (later duplicate wins,
as for a Python dict comprehension). -/
def msgByIdDict (msgs : List MsgRow) : List (Int × MsgRow) :=
  msgs.foldl (fun acc m =>
    if (acc.lookup m.id).isSome then
      acc.map (fun p => if p.1 = m.id then (m.id, m) else p)
    else acc ++ [(m.id, m)]) []

/-- `req.get("message_ids", [])`, as the id list used for matching. -/
def copyForwardOriginalIds (req : JVal) : List JVal :=
  match (req.getKey "message_ids").getD (JVal.arr []) with
  | JVal.arr xs => xs
  | _ => []

/-- The WHERE clause of the source-message lookup of the
`copyMessages` / `forwardMessages` branch. -/
def copyForwardSourceFilter (req : JVal) (m : MsgRow) : Bool :=
  intMatches (reqGet req "from_chat_id") m.chatId ∧
    (copyForwardOriginalIds req).any (fun v => intMatches v m.id)

/-- The WHERE clause of the source-message lookup of the `copyMessage`
branch. -/
def copyMessageSourceFilter (req : JVal) (m : MsgRow) : Bool :=
  intMatches (reqGet req "message_id") m.id ∧
    intMatches (reqGet req "from_chat_id") m.chatId

/-- The patched clone dict of the `copyMessages` / `forwardMessages`
branch: drop the edit timestamp, rewrite id and chat, apply the
thread-id, remove-caption (copy only) and protect-content options. -/
def copiedMessageDict (req : JVal) (method : String) (original : MsgRow)
    (chatId : Int) (newId : Int) : JVal :=
  let d := toDictRow original
  let d := d.delKey "edit_date"
  let d := d.setKey "message_id" (JVal.int newId)
  let d := d.setKey "chat"
    (((d.getKey "chat").getD JVal.null).setKey "id" (JVal.int chatId))
  let d := if (reqGet req "message_thread_id").truthy then
    d.setKey "message_thread_id" (reqGet req "message_thread_id") else d
  let d := if (reqGet req "remove_caption").truthy ∧ method = "copyMessages" then
    d.setKey "caption" JVal.null else d
  let d := if (reqGet req "protect_content").truthy then
    d.setKey "has_protected_content" (JVal.bool true) else d
  d

/-- The `copyMessages` / `forwardMessages` branch of
`log_telegram_request` (list-shaped result). -/
def logCopyForwardList (db : DB) (req : JVal) (data : List JVal)
    (method : String) (botId : Int) (fetched : Option ChatFullInfoE) :
    Option DB :=
  let chatIdV := reqGet req "chat_id"
  let fromChatIdV := reqGet req "from_chat_id"
  let originalIdsV := (req.getKey "message_ids").getD (JVal.arr [])
  let originalIds := copyForwardOriginalIds req
  -- `[msg_id_obj["message_id"] for msg_id_obj in data]`
  match data.mapM (fun d => (d.getKey "message_id").bind JVal.asInt) with
  | none => none
  | some copiedIds =>
    if ¬chatIdV.truthy ∨ ¬fromChatIdV.truthy ∨ ¬originalIdsV.truthy ∨
        copiedIds.isEmpty ∨ originalIds.length ≠ copiedIds.length then
      some db
    else
      let msgFilter := copyForwardSourceFilter req
      let resolved : Option (List MsgRow × Bool × Option Int) :=
        match chatIdV with
        | JVal.str s =>
          let rows := usernameJoinRows db (stripAts s) msgFilter
          match rows.head? with
          | none => none
          | some r0 =>
            some (rows.map Prod.fst, optIntTruthy r0.2, r0.2)
        | _ =>
          let msgs := db.messages.filter msgFilter
          if msgs.isEmpty then none
          else
            let chatExists := match chatIdV.asInt with
              | some n => db.chats.any (fun c => c.id = n)
              | none => false
            some (msgs, chatExists, chatIdV.asInt)
      match resolved with
      | none => some db          -- source messages never logged: skip
      | some (originalDbMsgs, chatExists, resolvedId) =>
        match (if chatExists then
                 resolvedId.map (fun n => (n, db))
               else
                 (fetchNewChatInfo db fetched botId).map
                   (fun p => (p.1.id, p.2))) with
        | none => none
        | some (chatId, db) =>
          let msgById := msgByIdDict originalDbMsgs
          let copiedMessages := (originalIds.zip copiedIds).filterMap
            (fun p =>
              match p.1.asInt with
              | some oid => (msgById.lookup oid).map (fun m => (m, p.2))
              | none => none)
          if copiedMessages.isEmpty then some db
          else
            match copiedMessages.mapM (fun p =>
                deJsonMessage (copiedMessageDict req method p.1 chatId p.2)) with
            | none => none
            | some newMessages =>
              let (g, root) := graphOfMessages newMessages
              match logObject db g root botId with
              | none => none
              | some (db, _) => some db

/-- The patched clone dict of the single-message `copyMessage` branch,
including the two whole-dict overwrites performed for truthy
`show_caption_above_media` and `reply_markup` request values. -/
def copyMessagePatchedDict (req : JVal) (original : MsgRow) (chatId : Int)
    (copiedIdV : JVal) : JVal :=
  let d := toDictRow original
  let d := d.delKey "edit_date"
  let d := d.setKey "message_id" copiedIdV
  let d := d.setKey "chat"
    (((d.getKey "chat").getD JVal.null).setKey "id" (JVal.int chatId))
  let d := if (reqGet req "message_thread_id").truthy then
    d.setKey "message_thread_id" (reqGet req "message_thread_id") else d
  let d := if (reqGet req "protect_content").truthy then
    d.setKey "has_protected_content" (JVal.bool true) else d
  let d := if (reqGet req "caption").truthy then
    d.setKey "caption" (reqGet req "caption") else d
  let d := if (reqGet req "caption_entities").truthy then
    d.setKey "caption_entities" (reqGet req "caption_entities") else d
  -- `msg_dict = req["show_caption_above_media"]` (the whole dict is
  -- replaced by the request value, not one field of it)
  let d := if (reqGet req "show_caption_above_media").truthy then
    reqGet req "show_caption_above_media" else d
  -- `msg_dict = req["reply_markup"]` (likewise)
  let d := if (reqGet req "reply_markup").truthy then
    reqGet req "reply_markup" else d
  d

/-- The `copyMessage` branch of `log_telegram_request` (dict-shaped
result): resolve, patch, re-decode, then `db.add` the message row and
its bot association directly. -/
def logCopyMessageSingle (db : DB) (req : JVal) (data : JVal)
    (botId : Int) (fetched : Option ChatFullInfoE) : Option DB :=
  let chatIdV := reqGet req "chat_id"
  let fromChatIdV := reqGet req "from_chat_id"
  let originalIdV := reqGet req "message_id"
  let copiedIdV := (data.getKey "message_id").getD JVal.null
  if ¬chatIdV.truthy ∨ ¬fromChatIdV.truthy ∨ ¬originalIdV.truthy ∨
      ¬copiedIdV.truthy then
    some db
  else
    let msgFilter := copyMessageSourceFilter req
    let resolved : Option (MsgRow × Bool × Option Int) :=
      match chatIdV with
      | JVal.str s =>
        let rows := usernameJoinRows db (stripAts s) msgFilter
        match rows.head? with
        | none => none
        | some r0 => some (r0.1, optIntTruthy r0.2, r0.2)
      | _ =>
        match (db.messages.filter msgFilter).head? with
        | none => none
        | some m =>
          let chatExists := match chatIdV.asInt with
            | some n => db.chats.any (fun c => c.id = n)
            | none => false
          some (m, chatExists, chatIdV.asInt)
    match resolved with
    | none => some db            -- source message never logged: skip
    | some (originalMsg, chatExists, resolvedId) =>
      match (if chatExists then
               resolvedId.map (fun n => (n, db))
             else
               (fetchNewChatInfo db fetched botId).map
                 (fun p => (p.1.id, p.2))) with
      | none => none
      | some (chatId, db) =>
        match deJsonMessage
            (copyMessagePatchedDict req originalMsg chatId copiedIdV) with
        | none => none
        | some jsonMsg =>
          match copiedIdV.asInt with
          | none => none
          | some copiedId =>
            some { db with
              messages := db.messages ++ [prepareMessage jsonMsg],
              botMessages := db.botMessages ++
                [{ botId := botId, chatId := chatId, messageId := copiedId }] }

/-! ### The dispatcher (`log_telegram_request`) -/

def messageReturnedMethods : List String :=
  ["sendMessage", "forwardMessage", "sendPhoto", "sendAudio",
   "sendDocument", "sendVideo", "sendAnimation", "sendVoice",
   "sendVideoNote", "sendPaidMedia", "sendLocation", "sendVenue",
   "sendContact", "sendPoll", "sendChecklist", "sendDice", "sendSticker",
   "sendInvoice", "sendGame"]

def editedMessageReturnedMethods : List String :=
  ["editMessageText", "editMessageCaption", "editMessageMedia",
   "editMessageLiveLocation", "stopMessageLiveLocation",
   "editMessageChecklist", "editMessageReplyMarkup", "setGameScore"]

/-- The `getUpdates` branch: decode the updates, collect the edited
messages, log the whole batch, then apply each edit with
`skip_log=True`. -/
def logGetUpdates (db : DB) (items : List JVal) (botId : Int) : Option DB :=
  match items.mapM deJsonUpdate with
  | none => none
  | some updates =>
    let updatedMessages := updates.filterMap updateEditedMessage
    let (g, root) := graphOfUpdates updates
    match logObject db g root botId with
    | none => none
    | some (db, _) =>
      some (updatedMessages.foldl applyMessageEdit db)

def logSendMediaGroup (db : DB) (items : List JVal) (botId : Int) :
    Option DB :=
  match items.mapM deJsonMessage with
  | none => none
  | some messages =>
    let (g, root) := graphOfMessages messages
    match logObject db g root botId with
    | none => none
    | some (db, _) => some db

/-- The `getChatFullInfo` branch. -/
def logGetChatFullInfo (db : DB) (data : JVal) (botId : Int) : Option DB :=
  match deJsonChatFullInfo data with
  | none => none
  | some chatInfo =>
    -- `chats_to_log[chat.id] = chat` for personal then parent: a dict,
    -- so a later entry with the same id overwrites the earlier one
    let chatsToLog : List ChatE :=
      match chatInfo.personalChat, chatInfo.parentChat with
      | some qc, some pc => if qc.id = pc.id then [pc] else [qc, pc]
      | some qc, none => [qc]
      | none, some pc => [pc]
      | none, none => []
    match (if !chatsToLog.isEmpty then logChats db chatsToLog else some db) with
    | none => none
    | some db => logChatFullInfo db chatInfo botId

/-- `log_telegram_request`: dispatch on the result shape and the method
name.  `fetched` is the oracle for the (at most one) live chat-info
fetch a copy/forward branch may perform. -/
def logTelegramRequest (db : DB) (req : JVal) (data : JVal)
    (method : String) (botId : Int) (fetched : Option ChatFullInfoE) :
    Option DB :=
  match data with
  | JVal.bool _ => some db
  | JVal.arr items =>
    if method = "getUpdates" then logGetUpdates db items botId
    else if method = "sendMediaGroup" then logSendMediaGroup db items botId
    else if method = "copyMessages" ∨ method = "forwardMessages" then
      logCopyForwardList db req items method botId fetched
    else some db
  | j =>
    if method = "getChatFullInfo" then logGetChatFullInfo db j botId
    else if method = "getMe" then
      match deJsonUser j with
      | none => none
      | some user => some (logMe db user)
    else if method ∈ messageReturnedMethods then
      match deJsonMessage j with
      | none => none
      | some m =>
        let (g, root) := graphOfMessage m
        match logObject db g root botId with
        | none => none
        | some (db, _) => some db
    else if method ∈ editedMessageReturnedMethods then
      match deJsonMessage j with
      | none => none
      | some m =>
        match updateMessage db m botId false with
        | none => none
        | some (db, _) => some db
    else if method = "copyMessage" then
      logCopyMessageSingle db req j botId fetched
    else some db

/-! ## Lemmas about the extractor traversal -/

/-- Every payload reference designates an actual object. -/
def WellFormed (g : PyGraph) : Prop :=
  ∀ o ∈ g.nodes, ∀ c ∈ o.children, c < g.nodes.length

theorem findGo_seen_subset (g : PyGraph) (p : PyObj → Bool) :
    ∀ (fuel : Nat) (l : List Nat) (seen s : Finset ℕ) (log found : List ℕ),
      findGo g p fuel l seen = some (s, log, found) → seen ⊆ s := by
  intro fuel
  induction fuel with
  | zero =>
    intro l seen s log found h
    cases l with
    | nil =>
      simp only [findGo, Option.some.injEq, Prod.mk.injEq] at h
      exact h.1 ▸ Finset.Subset.refl _
    | cons i rest => simp [findGo] at h
  | succ n ih =>
    intro l seen s log found h
    cases l with
    | nil =>
      simp only [findGo, Option.some.injEq, Prod.mk.injEq] at h
      exact h.1 ▸ Finset.Subset.refl _
    | cons i rest =>
      rw [findGo] at h
      by_cases hmem : i ∈ seen
      · rw [if_pos hmem] at h
        exact ih rest seen s log found h
      · rw [if_neg hmem] at h
        split at h
        · exact absurd h (by simp)
        · rename_i s2 log2 found2 h2
          split at h
          · exact absurd h (by simp)
          · rename_i s3 log3 found3 h3
            simp only [Option.some.injEq, Prod.mk.injEq] at h
            have hsub2 : insert i seen ⊆ s2 :=
              ih _ _ _ _ _ h2
            have hsub3 : s2 ⊆ s3 := ih _ _ _ _ _ h3
            exact h.1 ▸ fun x hx =>
              hsub3 (hsub2 (Finset.mem_insert_of_mem hx))

theorem potential_insert_lt (g : PyGraph) {i : ℕ} (seen : Finset ℕ)
    (hi : i < g.nodes.length) (hmem : i ∉ seen) :
    potential g (insert i seen) + nodeWeight g i = potential g seen := by
  unfold potential
  rw [Finset.sdiff_insert]
  exact Finset.sum_erase_add _ _
    (Finset.mem_sdiff.mpr ⟨Finset.mem_range.mpr hi, hmem⟩)

theorem potential_insert_of_ge (g : PyGraph) {i : ℕ} (seen : Finset ℕ)
    (hi : g.nodes.length ≤ i) :
    potential g (insert i seen) = potential g seen := by
  unfold potential
  rw [Finset.sdiff_insert, Finset.erase_eq_of_not_mem]
  intro hx
  exact absurd (Finset.mem_range.mp (Finset.mem_sdiff.mp hx).1)
    (not_lt.mpr hi)

theorem potential_mono (g : PyGraph) {seen s' : Finset ℕ}
    (h : seen ⊆ s') : potential g s' ≤ potential g seen := by
  unfold potential
  refine Finset.sum_le_sum_of_subset ?_
  exact Finset.sdiff_subset_sdiff (Finset.Subset.refl _) h

theorem get_default_of_ge (g : PyGraph) {i : ℕ}
    (hi : g.nodes.length ≤ i) : g.get i = {} :=
  List.getD_eq_default _ _ hi

/-- Termination of the shared traversal of `find_instances` /
`find_objects_with_attributes`: the static fuel `fuelBound` always
suffices, on every graph, cyclic payloads included. -/
theorem findGo_isSome (g : PyGraph) (p : PyObj → Bool) :
    ∀ (fuel : Nat) (l : List Nat) (seen : Finset ℕ),
      l.length + potential g seen ≤ fuel →
      (findGo g p fuel l seen).isSome := by
  intro fuel
  induction fuel with
  | zero =>
    intro l seen h
    cases l with
    | nil => simp [findGo]
    | cons i rest => simp at h
  | succ n ih =>
    intro l seen h
    cases l with
    | nil => simp [findGo]
    | cons i rest =>
      rw [findGo]
      by_cases hmem : i ∈ seen
      · rw [if_pos hmem]
        refine ih rest seen ?_
        simp only [List.length_cons] at h
        omega
      · rw [if_neg hmem]
        simp only [List.length_cons] at h
        by_cases hi : i < g.nodes.length
        · have hpot := potential_insert_lt g seen hi hmem
          have h1 : (g.get i).children.length +
              potential g (insert i seen) ≤ n := by
            unfold nodeWeight at hpot
            omega
          obtain ⟨r2, hr2⟩ := Option.isSome_iff_exists.mp (ih _ _ h1)
          obtain ⟨s2, log2, found2⟩ := r2
          simp only [hr2]
          have hsub2 : insert i seen ⊆ s2 :=
            findGo_seen_subset g p n _ _ _ _ _ hr2
          have h2 : rest.length + potential g s2 ≤ n := by
            have := potential_mono g hsub2
            unfold nodeWeight at hpot
            omega
          obtain ⟨r3, hr3⟩ := Option.isSome_iff_exists.mp (ih rest s2 h2)
          obtain ⟨s3, log3, found3⟩ := r3
          simp [hr3]
        · have hchild : (g.get i).children = [] := by
            rw [get_default_of_ge g (le_of_not_lt hi)]
          rw [hchild]
          have hpot := potential_insert_of_ge g seen (le_of_not_lt hi)
          have h2 : rest.length + potential g (insert i seen) ≤ n := by
            omega
          simp only [findGo]
          obtain ⟨r3, hr3⟩ :=
            Option.isSome_iff_exists.mp (ih rest (insert i seen) h2)
          obtain ⟨s3, log3, found3⟩ := r3
          simp [hr3]

/-- Traversal invariant: the final seen set is the initial one plus the
visit log; the log never repeats an identity and never revisits an
already-seen identity. -/
theorem findGo_log (g : PyGraph) (p : PyObj → Bool) :
    ∀ (fuel : Nat) (l : List Nat) (seen s : Finset ℕ) (log found : List ℕ),
      findGo g p fuel l seen = some (s, log, found) →
      s = seen ∪ log.toFinset ∧ log.Nodup ∧ ∀ x ∈ log, x ∉ seen := by
  intro fuel
  induction fuel with
  | zero =>
    intro l seen s log found h
    cases l with
    | nil =>
      simp only [findGo, Option.some.injEq, Prod.mk.injEq] at h
      obtain ⟨rfl, rfl, rfl⟩ := h
      simp
    | cons i rest => simp [findGo] at h
  | succ n ih =>
    intro l seen s log found h
    cases l with
    | nil =>
      simp only [findGo, Option.some.injEq, Prod.mk.injEq] at h
      obtain ⟨rfl, rfl, rfl⟩ := h
      simp
    | cons i rest =>
      rw [findGo] at h
      by_cases hmem : i ∈ seen
      · rw [if_pos hmem] at h
        exact ih rest seen s log found h
      · rw [if_neg hmem] at h
        split at h
        · exact absurd h (by simp)
        · rename_i s2 log2 found2 h2
          split at h
          · exact absurd h (by simp)
          · rename_i s3 log3 found3 h3
            simp only [Option.some.injEq, Prod.mk.injEq] at h
            obtain ⟨rfl, rfl, rfl⟩ := h
            obtain ⟨hs2, hnd2, hfresh2⟩ := ih _ _ _ _ _ h2
            obtain ⟨hs3, hnd3, hfresh3⟩ := ih _ _ _ _ _ h3
            have hiS2 : i ∈ s2 := by
              rw [hs2]; exact Finset.mem_union_left _ (Finset.mem_insert_self _ _)
            refine ⟨?_, ?_, ?_⟩
            · rw [hs3, hs2]
              ext x
              simp only [Finset.mem_union, Finset.mem_insert,
                List.toFinset_cons, List.toFinset_append, List.mem_toFinset]
              tauto
            · refine List.Nodup.cons ?_ (List.Nodup.append hnd2 hnd3 ?_)
              · intro hx
                rcases List.mem_append.mp hx with hx2 | hx3
                · exact hfresh2 i hx2 (Finset.mem_insert_self _ _)
                · exact hfresh3 i hx3 hiS2
              · intro x hx2 hx3
                refine hfresh3 x hx3 ?_
                rw [hs2]
                exact Finset.mem_union_right _ (List.mem_toFinset.mpr hx2)
            · intro x hx hxseen
              rcases List.mem_cons.mp hx with rfl | hx'
              · exact hmem hxseen
              · rcases List.mem_append.mp hx' with hx2 | hx3
                · exact hfresh2 x hx2 (Finset.mem_insert_of_mem hxseen)
                · refine hfresh3 x hx3 ?_
                  rw [hs2]
                  exact Finset.mem_union_left _ (Finset.mem_insert_of_mem hxseen)

/-- Every visited identity was on the worklist or is a child of some
object. -/
theorem findGo_log_mem (g : PyGraph) (p : PyObj → Bool) :
    ∀ (fuel : Nat) (l : List Nat) (seen s : Finset ℕ) (log found : List ℕ),
      findGo g p fuel l seen = some (s, log, found) →
      ∀ x ∈ log, x ∈ l ∨ ∃ j, x ∈ (g.get j).children := by
  intro fuel
  induction fuel with
  | zero =>
    intro l seen s log found h
    cases l with
    | nil =>
      simp only [findGo, Option.some.injEq, Prod.mk.injEq] at h
      obtain ⟨rfl, rfl, rfl⟩ := h
      simp
    | cons i rest => simp [findGo] at h
  | succ n ih =>
    intro l seen s log found h
    cases l with
    | nil =>
      simp only [findGo, Option.some.injEq, Prod.mk.injEq] at h
      obtain ⟨rfl, rfl, rfl⟩ := h
      simp
    | cons i rest =>
      rw [findGo] at h
      by_cases hmem : i ∈ seen
      · rw [if_pos hmem] at h
        intro x hx
        rcases ih rest seen s log found h x hx with hl | hc
        · exact Or.inl (List.mem_cons_of_mem _ hl)
        · exact Or.inr hc
      · rw [if_neg hmem] at h
        split at h
        · exact absurd h (by simp)
        · rename_i s2 log2 found2 h2
          split at h
          · exact absurd h (by simp)
          · rename_i s3 log3 found3 h3
            simp only [Option.some.injEq, Prod.mk.injEq] at h
            obtain ⟨rfl, rfl, rfl⟩ := h
            intro x hx
            rcases List.mem_cons.mp hx with rfl | hx'
            · exact Or.inl (List.mem_cons_self _ _)
            · rcases List.mem_append.mp hx' with hx2 | hx3
              · rcases ih _ _ _ _ _ h2 x hx2 with hl | hc
                · exact Or.inr ⟨i, hl⟩
                · exact Or.inr hc
              · rcases ih _ _ _ _ _ h3 x hx3 with hl | hc
                · exact Or.inl (List.mem_cons_of_mem _ hl)
                · exact Or.inr hc

/-- Matching objects are reported in the order they were first visited:
the found list is a sublist of the visit log. -/
theorem findGo_found_sublist (g : PyGraph) (p : PyObj → Bool) :
    ∀ (fuel : Nat) (l : List Nat) (seen s : Finset ℕ) (log found : List ℕ),
      findGo g p fuel l seen = some (s, log, found) →
      found.Sublist log := by
  intro fuel
  induction fuel with
  | zero =>
    intro l seen s log found h
    cases l with
    | nil =>
      simp only [findGo, Option.some.injEq, Prod.mk.injEq] at h
      obtain ⟨rfl, rfl, rfl⟩ := h
      simp
    | cons i rest => simp [findGo] at h
  | succ n ih =>
    intro l seen s log found h
    cases l with
    | nil =>
      simp only [findGo, Option.some.injEq, Prod.mk.injEq] at h
      obtain ⟨rfl, rfl, rfl⟩ := h
      simp
    | cons i rest =>
      rw [findGo] at h
      by_cases hmem : i ∈ seen
      · rw [if_pos hmem] at h
        exact ih rest seen s log found h
      · rw [if_neg hmem] at h
        split at h
        · exact absurd h (by simp)
        · rename_i s2 log2 found2 h2
          split at h
          · exact absurd h (by simp)
          · rename_i s3 log3 found3 h3
            simp only [Option.some.injEq, Prod.mk.injEq] at h
            obtain ⟨rfl, rfl, rfl⟩ := h
            have happ : (found2 ++ found3).Sublist (log2 ++ log3) :=
              List.Sublist.append (ih _ _ _ _ _ h2) (ih _ _ _ _ _ h3)
            by_cases hp : p (g.get i)
            · simpa [hp] using List.Sublist.cons₂ i happ
            · simpa [hp] using List.Sublist.cons i happ

/-- The ordered identities of the objects first visited by a traversal
(the `seen.add(obj_id)` events). -/
def traversalLog (g : PyGraph) (p : PyObj → Bool) (l : List Nat) : List ℕ :=
  (findTraverse g p l).2.1

/-- C9.  The extractor traversal (`find_instances` and
`find_objects_with_attributes`, which share it) terminates on every
payload object graph — the static fuel `fuelBound` always suffices, also
on self-referential and cyclic graphs — and never visits the same object
instance (identity, i.e. node index) twice: the visit log repeats no
identity and is no longer than the object count; found objects are
reported in first-visit order. -/
theorem extractor_traversal_terminates_no_revisit (g : PyGraph)
    (root : Nat) (p : PyObj → Bool) (hwf : WellFormed g)
    (hroot : root < g.nodes.length) :
    (findGo g p (fuelBound g [root]) [root] ∅).isSome
    ∧ (traversalLog g p [root]).Nodup
    ∧ (traversalLog g p [root]).length ≤ g.nodes.length
    ∧ (findInstances g p root).Sublist (traversalLog g p [root])
    ∧ findObjectsWithAttributes g root = findInstances g hasFileAttrs root := by
  have hsome : (findGo g p (fuelBound g [root]) [root] ∅).isSome :=
    findGo_isSome g p _ [root] ∅ (le_of_eq rfl)
  obtain ⟨r, hr⟩ := Option.isSome_iff_exists.mp hsome
  obtain ⟨s, log, found⟩ := r
  have htrav : findTraverse g p [root] = (s, log, found) := by
    unfold findTraverse
    rw [hr]
    rfl
  have hlogT : traversalLog g p [root] = log := by
    unfold traversalLog
    rw [htrav]
  obtain ⟨_, hnd, _⟩ := findGo_log g p _ _ _ _ _ _ hr
  have hmem : ∀ x ∈ log, x < g.nodes.length := by
    intro x hx
    rcases findGo_log_mem g p _ _ _ _ _ _ hr x hx with hl | ⟨j, hj⟩
    · rcases List.mem_singleton.mp hl with rfl
      exact hroot
    · by_cases hjlt : j < g.nodes.length
      · refine hwf (g.get j) ?_ x hj
        unfold PyGraph.get
        rw [List.getD_eq_getElem _ _ hjlt]
        exact List.getElem_mem _
      · rw [get_default_of_ge g (le_of_not_lt hjlt)] at hj
        exact absurd hj (List.not_mem_nil x)
  refine ⟨hsome, hlogT ▸ hnd, ?_, ?_, rfl⟩
  · rw [hlogT]
    calc log.length = log.toFinset.card :=
          (List.toFinset_card_of_nodup hnd).symm
      _ ≤ (Finset.range g.nodes.length).card := by
          refine Finset.card_le_card ?_
          intro x hx
          exact Finset.mem_range.mpr (hmem x (List.mem_toFinset.mp hx))
      _ = g.nodes.length := Finset.card_range _
  · rw [hlogT]
    have : findInstances g p root = found := by
      unfold findInstances
      rw [show findTraverse g p [root] = (s, log, found) from htrav]
    rw [this]
    exact findGo_found_sublist g p _ _ _ _ _ _ hr

/-- A cyclic two-object payload: each object references the other (and
one also itself); the two carry value-identical `User` data but are
distinct instances. -/
def cyclicPayload : PyGraph :=
  ⟨[{ children := [1], entity := EntityData.user { id := 7, firstName := "a" } },
    { children := [0, 1], entity := EntityData.user { id := 7, firstName := "a" } }]⟩

theorem extractor_traversal_terminates_no_revisit_witness :
    WellFormed cyclicPayload ∧ 0 < cyclicPayload.nodes.length ∧
    ((findGo cyclicPayload isUserObj (fuelBound cyclicPayload [0]) [0] ∅).isSome
      ∧ (traversalLog cyclicPayload isUserObj [0]).Nodup
      ∧ (traversalLog cyclicPayload isUserObj [0]).length ≤
          cyclicPayload.nodes.length
      ∧ (findInstances cyclicPayload isUserObj 0).Sublist
          (traversalLog cyclicPayload isUserObj [0])
      ∧ findObjectsWithAttributes cyclicPayload 0 =
          findInstances cyclicPayload hasFileAttrs 0) ∧
    traversalLog cyclicPayload isUserObj [0] = [0, 1] :=
  ⟨by unfold WellFormed; decide, by decide,
   extractor_traversal_terminates_no_revisit cyclicPayload 0 isUserObj
     (by unfold WellFormed; decide) (by decide),
   by decide⟩

/-! ## Lemmas about the Existence Resolver and the Reconciler -/

theorem lookup_isSome_of_mem_fst {α β : Type} [BEq α] [LawfulBEq α]
    (l : List (α × β)) (a : α) (h : a ∈ l.map Prod.fst) :
    (l.lookup a).isSome := by
  induction l with
  | nil => simp at h
  | cons hd tl ih =>
    obtain ⟨k, b⟩ := hd
    simp only [List.map_cons, List.mem_cons] at h
    cases hbeq : a == k with
    | true => simp [List.lookup, hbeq]
    | false =>
      rcases h with rfl | h'
      · simp at hbeq
      · simp only [List.lookup, hbeq]
        exact ih h'

theorem mem_nonEmptyCteData {α : Type} {x sent : α} {data : List α}
    (h : x ∈ nonEmptyCteData data sent) : x = sent ∨ x ∈ data := by
  unfold nonEmptyCteData at h
  split at h
  · exact Or.inl (List.mem_singleton.mp h)
  · exact Or.inr h

theorem mem_msgCteData {k : Option Int × Option Int}
    {messages : List (Int × Int)} (h : k ∈ msgCteData messages) :
    ∃ p ∈ messages, k = (some p.1, some p.2) := by
  unfold msgCteData at h
  obtain ⟨p, hp, rfl⟩ := List.mem_map.mp h
  exact ⟨p, hp, rfl⟩

/-- The central defect: every row produced by `check_entities` reports
`exists = true` (and, for messages and files, `bot_relation = true`),
because the per-kind SELECTs state no join condition — so the partition
loop of `log_object` never schedules any insert or association. -/
theorem partitionStep_checkEntities (db : DB) (ce : CollectedEntities)
    (botId : Int) (acc : Batches) (rows : List CheckRow) (row : CheckRow)
    (hsome : checkEntities db (ce.chats.map Prod.fst)
      (ce.users.map Prod.fst) (ce.messages.map Prod.fst)
      (ce.filesJson.map Prod.fst) botId = some rows)
    (hrow : row ∈ rows) :
    partitionStep ce acc row = some acc := by
  unfold checkEntities at hsome
  split at hsome
  · exact absurd hsome (by simp)
  dsimp only at hsome
  simp only [Option.some.injEq] at hsome
  subst hsome
  simp only [List.mem_append, List.mem_flatMap, List.mem_map] at hrow
  rcases hrow with (((⟨k, hk, tc, htc, rfl⟩ | ⟨k, hk, tu, htu, rfl⟩) |
      ⟨k, hk, tm, htm, bm, hbm, rfl⟩) | ⟨k, hk, tf, htf, bf, hbf, rfl⟩)
  · -- chat row
    rcases mem_nonEmptyCteData hk with rfl | hk'
    · simp [partitionStep, optIntTruthy]
    · obtain ⟨cid, hcid, rfl⟩ := List.mem_map.mp hk'
      by_cases hz : cid = 0
      · simp [partitionStep, optIntTruthy, hz]
      · have hlk := lookup_isSome_of_mem_fst ce.chats cid hcid
        obtain ⟨c, hc⟩ := Option.isSome_iff_exists.mp hlk
        simp [partitionStep, optIntTruthy, hz, hc]
  · -- user row
    rcases mem_nonEmptyCteData hk with rfl | hk'
    · simp [partitionStep, optIntTruthy]
    · obtain ⟨uid, huid, rfl⟩ := List.mem_map.mp hk'
      by_cases hz : uid = 0
      · simp [partitionStep, optIntTruthy, hz]
      · have hlk := lookup_isSome_of_mem_fst ce.users uid huid
        obtain ⟨u, hu⟩ := Option.isSome_iff_exists.mp hlk
        simp [partitionStep, optIntTruthy, hz, hu]
  · -- message row
    obtain ⟨pk, hpk, rfl⟩ := mem_msgCteData hk
    · by_cases hz1 : pk.1 = 0
      · simp [partitionStep, optIntTruthy, hz1]
      · by_cases hz2 : pk.2 = 0
        · simp [partitionStep, optIntTruthy, hz1, hz2]
        · have hmem : (pk.1, pk.2) ∈ ce.messages.map Prod.fst := by
            simpa using hpk
          have hlk := lookup_isSome_of_mem_fst ce.messages (pk.1, pk.2) hmem
          obtain ⟨m, hm⟩ := Option.isSome_iff_exists.mp hlk
          simp [partitionStep, optIntTruthy, hz1, hz2, hm, optBoolTruthy]
  · -- file row
    rcases mem_nonEmptyCteData hk with rfl | hk'
    · simp [partitionStep, optStrTruthy]
    · obtain ⟨fuid, hfuid, rfl⟩ := List.mem_map.mp hk'
      by_cases hz : fuid = ""
      · simp [partitionStep, optStrTruthy, hz]
      · have hlk := lookup_isSome_of_mem_fst ce.filesJson fuid hfuid
        obtain ⟨fo, hfo⟩ := Option.isSome_iff_exists.mp hlk
        simp [partitionStep, optStrTruthy, hz, hfo, optBoolTruthy]

theorem foldlM_partition_const (ce : CollectedEntities) (acc : Batches) :
    ∀ (rows : List CheckRow),
      (∀ r ∈ rows, partitionStep ce acc r = some acc) →
      rows.foldlM (partitionStep ce) acc = some acc := by
  intro rows
  induction rows with
  | nil => intro _; rfl
  | cons r rs ih =>
    intro h
    have hr : partitionStep ce acc r = some acc :=
      h r (List.mem_cons_self _ _)
    simp only [List.foldlM, hr, Option.bind_some]
    exact ih (fun r' hr' => h r' (List.mem_cons_of_mem _ hr'))

/-- When the payload carries at least one message key (so that the
two-column `input_messages` VALUES table is well-formed and the query
executes at all), `log_object` never mutates storage and reports every
batch empty: its one existence query (missing its joins) can never flag
a key as new or as lacking a bot association. -/
theorem logObject_identity (db : DB) (g : PyGraph) (root : Nat)
    (botId : Int) (hmsg : (collectEntities g root).messages ≠ []) :
    logObject db g root botId =
      some (db, (false, false, false, false, false, false)) := by
  unfold logObject
  dsimp only
  have hne : ¬((collectEntities g root).messages.map Prod.fst).isEmpty
      = true := by
    simp only [List.isEmpty_eq_true, List.map_eq_nil_iff]
    exact hmsg
  obtain ⟨rows, hrows⟩ : ∃ rows, checkEntities db
      ((collectEntities g root).chats.map Prod.fst)
      ((collectEntities g root).users.map Prod.fst)
      ((collectEntities g root).messages.map Prod.fst)
      ((collectEntities g root).filesJson.map Prod.fst) botId =
      some rows := by
    unfold checkEntities
    rw [if_neg hne]
    exact ⟨_, rfl⟩
  rw [hrows]
  have hp : partitionCheckResult (collectEntities g root) rows =
      some {} := by
    unfold partitionCheckResult
    exact foldlM_partition_const _ _ _
      (fun r hr => partitionStep_checkEntities db _ botId {} rows r hrows hr)
  dsimp only
  rw [hp]
  rfl

/-! ## C1 / C7: the Existence Resolver's single query -/

/-- Storage holding exactly one chat, with id 7. -/
def dbChatOnly : DB := { chats := [{ id := 7, ctype := "group" }] }

/-- The spec's resolver round-trip scenario: chats 1 and 2 are known; the
three users and the five messages are new (absent from storage); one of
the five message keys already carries a bot association; no files. -/
def dbResolverScenario : DB :=
  { chats := [{ id := 1, ctype := "group" }, { id := 2, ctype := "private" }],
    botMessages := [{ botId := 9, chatId := 1, messageId := 61 }] }

def resolverScenarioRows : Option (List CheckRow) :=
  checkEntities dbResolverScenario [1, 2] [101, 102, 103]
    [(1, 61), (1, 62), (1, 63), (1, 64), (1, 65)] [] 9

/-- C1.  The single existence query does not report per-key existence:
its per-kind SELECTs carry no join condition, so (a) an absent chat key
(5, with only chat 7 stored, queried alongside one message key so that
the statement is well-formed and executes) still comes back as one row
flagged `exists = true`, and (b) the spec's 3-users / 2-chats /
5-messages / 0-files event yields 4 rows (2 input chat keys × 2 stored
chat rows, and nothing at all for the kinds whose storage tables are
empty), not 10 — in particular no row for any of the three new users,
and every returned row flagged as existing. -/
theorem check_entities_missing_joins :
    checkEntities dbChatOnly [5] [] [(1, 1)] [] 9 =
      some [{ chatId := some 5, rowExists := true, etype := 1 }]
    ∧ resolverScenarioRows.map List.length = some 4
    ∧ resolverScenarioRows.map List.length ≠ some 10
    ∧ resolverScenarioRows.map (fun rows =>
        (rows.filter (fun r => r.etype = 2)).length) = some 0
    ∧ resolverScenarioRows.map (fun rows =>
        rows.all (fun r => r.rowExists)) = some true := by
  refine ⟨rfl, rfl, by decide, rfl, rfl⟩

/-- Storage holding one file, associated with bot 9. -/
def dbFileOnly : DB :=
  { files := [{ fileUniqueId := "f1", fileType := "photo" }],
    botFiles := [{ botId := 9, fileUniqueId := "f1", fileId := "abc" }] }

/-- C7 counterexample.  (a) With an empty file key set (and the query
made executable by one message key), the file kind still contributes one
placeholder row — so an empty kind does not contribute zero rows; (b)
with an empty message key set the query does not execute at all:
`non_empty_cte_data` supplies the 1-tuple `(None,)` for the two-column
`input_messages` VALUES table and the statement errors — so it is not
the case that the query still executes for every combination with an
empty kind. -/
theorem empty_kind_zero_rows_counterexample :
    checkEntities dbFileOnly [] [] [(1, 5)] [] 9 =
      some [{ fileUniqueId := none, rowExists := true,
              botRelation := some true, etype := 4 }]
    ∧ checkEntities dbFileOnly [] [] [(1, 5)] [] 9 ≠ some []
    ∧ checkEntities dbFileOnly [] [] [] [] 9 = none := by
  refine ⟨rfl, by decide, rfl⟩

/-- C7 amended.  An empty message key set makes the whole query fail
(the one-value sentinel row does not fit the two-column `input_messages`
VALUES table), so no result is produced for any kind; when the query
does execute, a chat / user / file kind with an empty key set causes no
error — its one-column VALUES table degrades to a single NULL row — and
contributes only rows whose key column is NULL (placeholder rows
matching no actual input key): rows with real keys can only stem from
the non-empty kinds. -/
theorem empty_kind_null_key_rows (db : DB) (chatIds userIds : List Int)
    (messages : List (Int × Int)) (fileIds : List String) (botId : Int) :
    (messages = [] →
      checkEntities db chatIds userIds messages fileIds botId = none)
    ∧ ∀ rows, checkEntities db chatIds userIds messages fileIds botId =
        some rows →
      (chatIds = [] → ∀ row ∈ rows, row.etype = 1 → row.chatId = none)
      ∧ (userIds = [] → ∀ row ∈ rows, row.etype = 2 → row.userId = none)
      ∧ (fileIds = [] → ∀ row ∈ rows, row.etype = 4 →
          row.fileUniqueId = none) := by
  constructor
  · intro hempty
    subst hempty
    rfl
  · intro rows hsome
    unfold checkEntities at hsome
    split at hsome
    · exact absurd hsome (by simp)
    dsimp only at hsome
    simp only [Option.some.injEq] at hsome
    subst hsome
    refine ⟨?_, ?_, ?_⟩ <;>
        intro hempty row hrow hety <;>
        subst hempty <;>
        simp only [List.mem_append, List.mem_flatMap, List.mem_map]
          at hrow <;>
        rcases hrow with (((⟨k, hk, tc, htc, rfl⟩ | ⟨k, hk, tu, htu, rfl⟩) |
            ⟨k, hk, tm, htm, bm, hbm, rfl⟩) | ⟨k, hk, tf, htf, bf, hbf, rfl⟩)
    case _ =>
      rcases mem_nonEmptyCteData hk with rfl | hk'
      · rfl
      · simp at hk'
    case _ => rfl
    case _ => simp at hety
    case _ => rfl
    case _ => rfl
    case _ =>
      rcases mem_nonEmptyCteData hk with rfl | hk'
      · rfl
      · simp at hk'
    case _ => rfl
    case _ => rfl
    case _ => rfl
    case _ => rfl
    case _ => rfl
    case _ =>
      rcases mem_nonEmptyCteData hk with rfl | hk'
      · rfl
      · simp at hk'

/-! ## C2 / C3: reconciler sightings and the edited-message path -/

/-- A sighted message (1,5), as decoded from a payload. -/
def msgSighted : MessageE :=
  { id := 5, chatId := 1, date := 100,
    toDict := JVal.obj [("message_id", JVal.int 5),
      ("chat", JVal.obj [("id", JVal.int 1), ("type", JVal.str "group")]),
      ("date", JVal.int 100), ("text", JVal.str "hi")] }

/-- Its payload object graph: the message object with its chat child. -/
def payloadKnownMsg : PyGraph :=
  ⟨[{ children := [1], entity := EntityData.message msgSighted },
    { entity := EntityData.chat { id := 1, ctype := "group" } }]⟩

/-- Storage that already holds chat 1 and message (1,5), with no bot
association at all. -/
def dbKnownMsg : DB :=
  { chats := [{ id := 1, ctype := "group" }],
    messages := [{ id := 5, chatId := 1, messageType := "text",
                   date := 100 }] }

/-- C2.  Bot 77 sights the already-stored message (1,5) for the first
time: the claim requires exactly one (77, (1,5)) association row to be
inserted, but `log_object` leaves storage byte-identical and reports all
six batches empty — no association (and no entity) is ever written,
because the joinless existence query flags every produced row as
existing and bot-associated (and produces no row at all for kinds whose
tables are empty). -/
theorem resight_known_message_inserts_no_association :
    dbKnownMsg.messages.map (fun r => (r.chatId, r.id)) = [(1, 5)]
    ∧ dbKnownMsg.botMessages = []
    ∧ logObject dbKnownMsg payloadKnownMsg 0 77 =
        some (dbKnownMsg, (false, false, false, false, false, false))
    ∧ (logObject dbKnownMsg payloadKnownMsg 0 77).map
        (fun p => p.1.botMessages) = some [] := by
  exact ⟨rfl, rfl, rfl, rfl⟩

/-- Storage holding chat 1 but not message (1,5): the sighted message is
truly new. -/
def dbNoMsg : DB := { chats := [{ id := 1, ctype := "group" }] }

/-- A head-of-worklist object that is unvisited and matches the
predicate is reported found. -/
theorem findGo_found_of_head (g : PyGraph) (p : PyObj → Bool)
    (fuel : Nat) (i : Nat) (rest : List Nat) (seen s : Finset ℕ)
    (log found : List ℕ)
    (h : findGo g p fuel (i :: rest) seen = some (s, log, found))
    (hmem : i ∉ seen) (hp : p (g.get i) = true) : i ∈ found := by
  cases fuel with
  | zero => simp [findGo] at h
  | succ n =>
    rw [findGo, if_neg hmem] at h
    split at h
    · exact absurd h (by simp)
    · rename_i s2 log2 found2 h2
      split at h
      · exact absurd h (by simp)
      · rename_i s3 log3 found3 h3
        simp only [Option.some.injEq, Prod.mk.injEq] at h
        obtain ⟨-, -, hf⟩ := h
        rw [← hf]
        simp [hp]

theorem dedupKeyed_foldl_ne_nil {κ α : Type} [DecidableEq κ] :
    ∀ (l : List (κ × α)) (acc : List (κ × α)), acc ≠ [] →
      l.foldl (fun acc p =>
        if acc.any (fun q => q.1 = p.1) then acc else acc ++ [p]) acc ≠ [] := by
  intro l
  induction l with
  | nil => intro acc h; exact h
  | cons x xs ih =>
    intro acc h
    simp only [List.foldl]
    refine ih _ ?_
    split
    · exact h
    · simp

/-- `deduplicate` of a non-empty object list is non-empty. -/
theorem dedupKeyed_ne_nil {κ α : Type} [DecidableEq κ]
    (l : List (κ × α)) (h : l ≠ []) : dedupKeyed l ≠ [] := by
  unfold dedupKeyed
  cases l with
  | nil => exact absurd rfl h
  | cons x xs =>
    simp only [List.foldl]
    refine dedupKeyed_foldl_ne_nil xs _ ?_
    simp

/-- The payload of an `update_message` call is the message object
itself, so the collected message map is never empty: the inner
`log_object`'s existence query is always well-formed. -/
theorem graphOfMessage_messages_ne (m : MessageE) :
    (collectEntities (graphOfMessage m).1 (graphOfMessage m).2).messages
      ≠ [] := by
  obtain ⟨r, hr⟩ := Option.isSome_iff_exists.mp
    (findGo_isSome (graphOfMessage m).1 isMessageObj
      (fuelBound (graphOfMessage m).1 [0]) [0] ∅ (le_of_eq rfl))
  obtain ⟨s, log, found⟩ := r
  have h0 : 0 ∈ found :=
    findGo_found_of_head _ _ _ _ _ _ _ _ _ hr (Finset.not_mem_empty 0) rfl
  have hfind : findInstances (graphOfMessage m).1 isMessageObj 0 = found := by
    unfold findInstances findTraverse
    rw [hr]
    rfl
  have hm : m ∈ (findInstances (graphOfMessage m).1 isMessageObj 0).filterMap
      (nodeMessage (graphOfMessage m).1) := by
    rw [hfind]
    exact List.mem_filterMap.mpr ⟨0, h0, rfl⟩
  unfold collectEntities
  dsimp only
  refine dedupKeyed_ne_nil _ ?_
  exact List.ne_nil_of_mem (List.mem_map_of_mem _ hm)

/-- C3 counterexample.  For a truly new (previously unseen) edited
message the claim demands the edit-apply step be short-circuited; the
code runs it: the second component of `update_message` (whether the
UPDATE statement executed) is `true`, not `false` — the short-circuit
condition (`res[3]`, a non-empty bot-association batch) never fires. -/
theorem truly_new_message_edit_still_applied :
    dbNoMsg.messages = []
    ∧ updateMessage dbNoMsg msgSighted 77 false = some (dbNoMsg, true)
    ∧ ¬(updateMessage dbNoMsg msgSighted 77 false).map
        Prod.snd = some false := by
  refine ⟨rfl, rfl, ?_⟩
  intro h
  rw [show updateMessage dbNoMsg msgSighted 77 false =
    some (dbNoMsg, true) from rfl] at h
  simp at h

/-- C3 amended.  The in-place edit statement always executes — for new
and for known messages alike, under both `skip_log` modes, since the
short-circuit (a non-empty bot-message batch from `log_object`) never
fires — and the UPDATE's SET clause omits `id` and `chat_id`, so the
composite key of every stored message row is unchanged. -/
theorem update_message_edit_always_runs (db : DB) (m : MessageE)
    (botId : Int) (skipLog : Bool) :
    updateMessage db m botId skipLog =
      some (applyMessageEdit db m, true)
    ∧ (applyMessageEdit db m).messages.map (fun r => (r.id, r.chatId)) =
        db.messages.map (fun r => (r.id, r.chatId)) := by
  constructor
  · cases skipLog with
    | true => rfl
    | false =>
      unfold updateMessage
      rw [logObject_identity db (graphOfMessage m).1 (graphOfMessage m).2
        botId (graphOfMessage_messages_ne m)]
      rfl
  · unfold applyMessageEdit
    rw [List.map_map]
    refine List.map_congr_left ?_
    intro r _
    by_cases h : r.id = m.id ∧ r.chatId = m.chatId <;> simp [h]

/-! ## C10: falsy identity keys are skipped -/

theorem lookup_mem {α β : Type} [BEq α] [LawfulBEq α] :
    ∀ (l : List (α × β)) (a : α) (b : β),
      l.lookup a = some b → (a, b) ∈ l := by
  intro l
  induction l with
  | nil => intro a b h; simp [List.lookup] at h
  | cons hd tl ih =>
    intro a b h
    obtain ⟨k, v⟩ := hd
    cases hbeq : a == k with
    | true =>
      rw [List.lookup, hbeq] at h
      simp only [Option.some.injEq] at h
      have : a = k := by simpa using hbeq
      exact this ▸ h ▸ List.mem_cons_self _ _
    | false =>
      rw [List.lookup, hbeq] at h
      exact List.mem_cons_of_mem _ (ih a b h)

/-- The deduplicated maps are keyed by the entities' own identity
fields (which `collect_entities` guarantees by construction). -/
def CollectedKeyConsistent (ce : CollectedEntities) : Prop :=
  (∀ p ∈ ce.users, p.2.id = p.1)
  ∧ (∀ p ∈ ce.chats, p.2.id = p.1)
  ∧ (∀ p ∈ ce.messages, p.2.chatId = p.1.1 ∧ p.2.id = p.1.2)
  ∧ (∀ p ∈ ce.filesJson,
      p.2.getKey "file_unique_id" = some (JVal.str p.1))

/-- The batch property C10 asserts: nothing scheduled for insertion
carries a falsy identity key. -/
def NoFalsyKeys (b : Batches) : Prop :=
  (∀ u ∈ b.newUsers, u.id ≠ 0)
  ∧ (∀ c ∈ b.newChats, c.id ≠ 0)
  ∧ (∀ m ∈ b.newMessages, m.chatId ≠ 0 ∧ m.id ≠ 0)
  ∧ (∀ pk ∈ b.newBotMessages, pk.1 ≠ 0 ∧ pk.2 ≠ 0)
  ∧ (∀ f ∈ b.newFiles, ∃ s, s ≠ "" ∧
      f.getKey "file_unique_id" = some (JVal.str s))
  ∧ (∀ bf ∈ b.newBotFiles, bf.1 ≠ "")

theorem optIntTruthy_getD_ne {o : Option Int}
    (h : optIntTruthy o = true) : o.getD 0 ≠ 0 := by
  cases o with
  | none => simp [optIntTruthy] at h
  | some v => simpa [optIntTruthy] using h

theorem optStrTruthy_getD_ne {o : Option String}
    (h : optStrTruthy o = true) : o.getD "" ≠ "" := by
  cases o with
  | none => simp [optStrTruthy] at h
  | some v => simpa [optStrTruthy] using h

theorem partitionStep_noFalsy (ce : CollectedEntities)
    (hce : CollectedKeyConsistent ce) (acc : Batches) (row : CheckRow)
    (b' : Batches) (hacc : NoFalsyKeys acc)
    (hstep : partitionStep ce acc row = some b') : NoFalsyKeys b' := by
  obtain ⟨hceU, hceC, hceM, hceF⟩ := hce
  obtain ⟨hU, hC, hM, hBM, hF, hBF⟩ := hacc
  unfold partitionStep at hstep
  split at hstep
  · -- user rows
    split at hstep
    · rename_i htr
      rcases hlk : List.lookup (row.userId.getD 0) ce.users with _ | u
      · rw [hlk] at hstep; exact absurd hstep (by simp)
      · rw [hlk] at hstep
        simp only [Option.some.injEq] at hstep
        subst hstep
        split
        · refine ⟨?_, hC, hM, hBM, hF, hBF⟩
          intro x hx
          rcases List.mem_append.mp hx with hx | hx
          · exact hU x hx
          · rcases List.mem_singleton.mp hx with rfl
            have hid := hceU _ (lookup_mem _ _ _ hlk)
            simp only at hid
            rw [hid]
            exact optIntTruthy_getD_ne htr
        · exact ⟨hU, hC, hM, hBM, hF, hBF⟩
    · simp only [Option.some.injEq] at hstep
      exact hstep ▸ ⟨hU, hC, hM, hBM, hF, hBF⟩
  · split at hstep
    · -- chat rows
      split at hstep
      · rename_i htr
        rcases hlk : List.lookup (row.chatId.getD 0) ce.chats with _ | c
        · rw [hlk] at hstep; exact absurd hstep (by simp)
        · rw [hlk] at hstep
          simp only [Option.some.injEq] at hstep
          subst hstep
          split
          · refine ⟨hU, ?_, hM, hBM, hF, hBF⟩
            intro x hx
            rcases List.mem_append.mp hx with hx | hx
            · exact hC x hx
            · rcases List.mem_singleton.mp hx with rfl
              have hid := hceC _ (lookup_mem _ _ _ hlk)
              simp only at hid
              rw [hid]
              exact optIntTruthy_getD_ne htr
          · exact ⟨hU, hC, hM, hBM, hF, hBF⟩
      · simp only [Option.some.injEq] at hstep
        exact hstep ▸ ⟨hU, hC, hM, hBM, hF, hBF⟩
    · split at hstep
      · -- message rows
        split at hstep
        · rename_i htr
          obtain ⟨htr1, htr2⟩ := htr
          have hc0 : row.chatId.getD 0 ≠ 0 := optIntTruthy_getD_ne htr1
          have hm0 : row.messageId.getD 0 ≠ 0 := optIntTruthy_getD_ne htr2
          dsimp only at hstep
          rcases hlk : List.lookup (row.chatId.getD 0, row.messageId.getD 0)
              ce.messages with _ | m
          · rw [hlk] at hstep; exact absurd hstep (by simp)
          · rw [hlk] at hstep
            dsimp only at hstep
            have hkey := hceM _ (lookup_mem _ _ _ hlk)
            simp only at hkey
            have hMn : ∀ x ∈ acc.newMessages ++ [m],
                x.chatId ≠ 0 ∧ x.id ≠ 0 := by
              intro x hx
              rcases List.mem_append.mp hx with hx | hx
              · exact hM x hx
              · rcases List.mem_singleton.mp hx with rfl
                exact ⟨hkey.1 ▸ hc0, hkey.2 ▸ hm0⟩
            have hBMn : ∀ pk ∈ acc.newBotMessages ++
                [(row.chatId.getD 0, row.messageId.getD 0)],
                pk.1 ≠ 0 ∧ pk.2 ≠ 0 := by
              intro pk hpk
              rcases List.mem_append.mp hpk with hpk | hpk
              · exact hBM pk hpk
              · rcases List.mem_singleton.mp hpk with rfl
                exact ⟨hc0, hm0⟩
            by_cases hre : (!row.rowExists) = true
            · rw [if_pos hre] at hstep
              by_cases hbr : (!optBoolTruthy row.botRelation) = true
              · rw [if_pos hbr] at hstep
                simp only [Option.some.injEq] at hstep
                subst hstep
                exact ⟨hU, hC, hMn, hBMn, hF, hBF⟩
              · rw [if_neg hbr] at hstep
                simp only [Option.some.injEq] at hstep
                subst hstep
                exact ⟨hU, hC, hMn, hBM, hF, hBF⟩
            · rw [if_neg hre] at hstep
              by_cases hbr : (!optBoolTruthy row.botRelation) = true
              · rw [if_pos hbr] at hstep
                simp only [Option.some.injEq] at hstep
                subst hstep
                exact ⟨hU, hC, hM, hBMn, hF, hBF⟩
              · rw [if_neg hbr] at hstep
                simp only [Option.some.injEq] at hstep
                subst hstep
                exact ⟨hU, hC, hM, hBM, hF, hBF⟩
        · simp only [Option.some.injEq] at hstep
          exact hstep ▸ ⟨hU, hC, hM, hBM, hF, hBF⟩
      · split at hstep
        · -- file rows
          split at hstep
          · rename_i htr
            have hf0 : row.fileUniqueId.getD "" ≠ "" :=
              optStrTruthy_getD_ne htr
            rcases hlk : List.lookup (row.fileUniqueId.getD "")
                ce.filesJson with _ | fo
            · rw [hlk] at hstep; exact absurd hstep (by simp)
            · rw [hlk] at hstep
              dsimp only at hstep
              have hkey := hceF _ (lookup_mem _ _ _ hlk)
              simp only at hkey
              have hFn : ∀ x ∈ acc.newFiles ++ [fo], ∃ s, s ≠ "" ∧
                  x.getKey "file_unique_id" = some (JVal.str s) := by
                intro x hx
                rcases List.mem_append.mp hx with hx | hx
                · exact hF x hx
                · rcases List.mem_singleton.mp hx with rfl
                  exact ⟨row.fileUniqueId.getD "", hf0, hkey⟩
              have hBFn : ∀ fid, ∀ bf ∈ acc.newBotFiles ++
                  [(row.fileUniqueId.getD "", fid)], bf.1 ≠ "" := by
                intro fid bf hbf
                rcases List.mem_append.mp hbf with hbf | hbf
                · exact hBF bf hbf
                · rcases List.mem_singleton.mp hbf with rfl
                  exact hf0
              by_cases hre : (!row.rowExists) = true
              · rw [if_pos hre] at hstep
                by_cases hbr : (!optBoolTruthy row.botRelation) = true
                · rw [if_pos hbr] at hstep
                  split at hstep
                  · rename_i fid hfid
                    simp only [Option.some.injEq] at hstep
                    subst hstep
                    exact ⟨hU, hC, hM, hBM, hFn, hBFn fid⟩
                  · exact absurd hstep (by simp)
                · rw [if_neg hbr] at hstep
                  simp only [Option.some.injEq] at hstep
                  subst hstep
                  exact ⟨hU, hC, hM, hBM, hFn, hBF⟩
              · rw [if_neg hre] at hstep
                by_cases hbr : (!optBoolTruthy row.botRelation) = true
                · rw [if_pos hbr] at hstep
                  split at hstep
                  · rename_i fid hfid
                    simp only [Option.some.injEq] at hstep
                    subst hstep
                    exact ⟨hU, hC, hM, hBM, hF, hBFn fid⟩
                  · exact absurd hstep (by simp)
                · rw [if_neg hbr] at hstep
                  simp only [Option.some.injEq] at hstep
                  subst hstep
                  exact ⟨hU, hC, hM, hBM, hF, hBF⟩
          · simp only [Option.some.injEq] at hstep
            exact hstep ▸ ⟨hU, hC, hM, hBM, hF, hBF⟩
        · simp only [Option.some.injEq] at hstep
          exact hstep ▸ ⟨hU, hC, hM, hBM, hF, hBF⟩

theorem foldlM_noFalsy (ce : CollectedEntities)
    (hce : CollectedKeyConsistent ce) :
    ∀ (rows : List CheckRow) (acc b : Batches), NoFalsyKeys acc →
      rows.foldlM (partitionStep ce) acc = some b → NoFalsyKeys b := by
  intro rows
  induction rows with
  | nil =>
    intro acc b hacc h
    simp only [List.foldlM, pure, Option.some.injEq] at h
    exact h ▸ hacc
  | cons r rs ih =>
    intro acc b hacc h
    simp only [List.foldlM] at h
    rcases hstep : partitionStep ce acc r with _ | acc'
    · rw [hstep] at h; exact absurd h (by simp)
    · rw [hstep] at h
      exact ih acc' b (partitionStep_noFalsy ce hce acc r acc' hacc hstep) h

/-- C10.  The partition loop of `log_object` silently skips every
resolver row whose identity key is falsy — a user or chat id 0, a zero
chat id or message id, an empty file unique id, or a NULL key — whatever
existence flags the row carries (`exists = false` included): no such key
is ever scheduled for an entity insert or an association insert. -/
theorem falsy_key_entities_skipped (ce : CollectedEntities)
    (rows : List CheckRow) (b : Batches)
    (hce : CollectedKeyConsistent ce)
    (hp : partitionCheckResult ce rows = some b) : NoFalsyKeys b := by
  unfold partitionCheckResult at hp
  refine foldlM_noFalsy ce hce rows {} b ?_ hp
  exact ⟨by simp, by simp, by simp, by simp, by simp, by simp⟩

/-- Extracted maps of one user with id 0 and one message keyed (0, 3). -/
def ceFalsy : CollectedEntities :=
  { users := [(0, { id := 0, firstName := "ghost" })],
    messages := [((0, 3), { id := 3, chatId := 0, date := 1 })] }

/-- Resolver rows reporting those falsy keys as *not* existing and not
bot-associated. -/
def rowsFalsy : List CheckRow :=
  [{ userId := some 0, rowExists := false, etype := 2 },
   { chatId := some 0, messageId := some 3, rowExists := false,
     botRelation := some false, etype := 3 }]

theorem falsy_key_entities_skipped_witness :
    partitionCheckResult ceFalsy rowsFalsy = some {} ∧
    NoFalsyKeys ({} : Batches) :=
  ⟨rfl, falsy_key_entities_skipped ceFalsy rowsFalsy {}
    ⟨by decide, by decide, by decide, by simp [ceFalsy]⟩ rfl⟩

/-! ## C6: the Profile Refresher -/

theorem bulkInsertFiles_chats {db db' : DB} {fs : List JVal}
    (h : bulkInsertFiles db fs = some db') : db'.chats = db.chats := by
  unfold bulkInsertFiles at h
  split at h
  · exact absurd h (by simp)
  · simp only [Option.some.injEq] at h
    exact h ▸ rfl

theorem insertChatPhotoEntities_chats {db db' : DB}
    {rows : List (String × Bool × Bool)} {bm : List (String × String)}
    {botId : Int} (h : insertChatPhotoEntities db rows bm botId = some db') :
    db'.chats = db.chats := by
  unfold insertChatPhotoEntities at h
  dsimp only at h
  split at h
  · exact absurd h (by simp)
  · rename_i db₁ h₁
    simp only [Option.some.injEq] at h
    have h₁c : db₁.chats = db.chats := by
      split at h₁
      · exact bulkInsertFiles_chats h₁
      · simp only [Option.some.injEq] at h₁
        exact h₁ ▸ rfl
    subst h
    split
    · exact h₁c
    · exact h₁c

theorem insertChatPhotoIfNotExist_chats {db db' : DB} {photo : ChatPhotoE}
    {botId : Int} (h : insertChatPhotoIfNotExist db photo botId = some db') :
    db'.chats = db.chats :=
  insertChatPhotoEntities_chats h

/-- The avatar-file upsert step performed for a snapshot carrying a
photo (`some db` when it carries none) leaves the chats table alone. -/
theorem photoStep_chats {db db' : DB} {photo : Option ChatPhotoE}
    {botId : Int}
    (h : (match photo with
          | some p => insertChatPhotoIfNotExist db p botId
          | none => some db) = some db') : db'.chats = db.chats := by
  cases photo with
  | none =>
    simp only [Option.some.injEq] at h
    exact h ▸ rfl
  | some p => exact insertChatPhotoIfNotExist_chats h

/-- An authoritative `getMe` snapshot for a bot whose row is absent. -/
def meSnapshotNew : UserE :=
  { id := 7, firstName := "Bot", username := some "bot7", isBot := true }

/-- A stored bot row and a fresh snapshot disagreeing on the mutable
premium and name fields. -/
def dbUserOld : DB :=
  { users := [{ id := 7, firstName := "Old", isPremium := true,
                isBot := true }] }

def meSnapshotChanged : UserE :=
  { id := 7, firstName := "New", isPremium := some false, isBot := true }

/-- C6 counterexample.  `log_me` is not an upsert: (a) with no stored
row for id 7, the snapshot inserts nothing (the claim requires an insert
carrying all fields); (b) on an existing row it overwrites only the
name / username / locale columns — the mutable `is_premium` flag keeps
its old value `true` although the snapshot says `false`. -/
theorem log_me_not_an_upsert_counterexample :
    logMe ({} : DB) meSnapshotNew = ({} : DB)
    ∧ (logMe ({} : DB) meSnapshotNew).users = []
    ∧ (logMe dbUserOld meSnapshotChanged).users =
        [{ id := 7, firstName := "New", isPremium := true, isBot := true }] := by
  exact ⟨rfl, rfl, rfl⟩

/-- C6 amended.  The full-chat-info half of the Profile Refresher is an
upsert as claimed: afterwards exactly the snapshot row stands under the
snapshot's id (inserted with all fields if absent, every mutable field
overwritten if present).  The `getMe` half is not: `log_me` never
inserts (the row count is unchanged, and with no matching row it is a
no-op) and rewrites only the first/last name, username and locale
columns of a matching row, leaving `is_premium` / `is_bot` alone. -/
theorem profile_refresher_upsert_amended (db db' : DB)
    (chat : ChatFullInfoE) (user : UserE) (botId : Int)
    (hchat : logChatFullInfo db chat botId = some db') :
    ((∃ r ∈ db'.chats, r.id = chat.id)
      ∧ ∀ r ∈ db'.chats, r.id = chat.id → r = chatFullInfoRow chat)
    ∧ (logMe db user).users.length = db.users.length
    ∧ (db.users.find? (fun r => r.id = user.id) = none →
        logMe db user = db)
    ∧ (∀ r ∈ db.users, r.id ≠ user.id → r ∈ (logMe db user).users)
    ∧ (∀ r ∈ db.users, r.id = user.id →
        { r with firstName := user.firstName, lastName := user.lastName,
                 username := user.username,
                 languageCode := user.languageCode } ∈ (logMe db user).users) := by
  refine ⟨?_, ?_, ?_, ?_, ?_⟩
  · -- the chat upsert
    unfold logChatFullInfo at hchat
    rcases hfind : db.chats.find? (fun r => r.id = chat.id) with _ | r₀
    · rw [hfind] at hchat
      dsimp only at hchat
      unfold logNewChatFullInfo at hchat
      rcases hph : (match chat.photo with
          | some p => insertChatPhotoIfNotExist db p botId
          | none => some db) with _ | db₁
      · rw [hph] at hchat
        exact absurd hchat (by simp)
      · rw [hph] at hchat
        dsimp only at hchat
        have h₁c : db₁.chats = db.chats := photoStep_chats hph
        split at hchat
        · simp only [Option.some.injEq] at hchat
          subst hchat
          constructor
          · exact ⟨chatFullInfoRow chat, by simp, rfl⟩
          · intro r hr hrid
            simp only [List.mem_append, List.mem_singleton] at hr
            rcases hr with hr | rfl
            · rw [h₁c] at hr
              have := List.find?_eq_none.mp hfind r hr
              simp only [decide_eq_true_eq] at this
              exact absurd hrid this
            · rfl
        · exact absurd hchat (by simp)
    · rw [hfind] at hchat
      dsimp only at hchat
      have hrid : r₀.id = chat.id := by
        have := List.find?_some hfind
        simpa using this
      have hrmem : r₀ ∈ db.chats := List.mem_of_find?_eq_some hfind
      rcases hph : (match chat.photo with
          | some p => insertChatPhotoIfNotExist db p botId
          | none => some db) with _ | db₁
      · rw [hph] at hchat
        exact absurd hchat (by simp)
      · rw [hph] at hchat
        dsimp only at hchat
        have h₁c : db₁.chats = db.chats := photoStep_chats hph
        split at hchat
        · simp only [Option.some.injEq] at hchat
          subst hchat
          constructor
          · refine ⟨{ chatFullInfoRow chat with id := r₀.id }, ?_, by simp [hrid]⟩
            simp only [List.mem_map]
            refine ⟨r₀, h₁c ▸ hrmem, ?_⟩
            rw [if_pos hrid]
          · intro r hr hrid'
            simp only [List.mem_map] at hr
            obtain ⟨r₁, hr₁, rfl⟩ := hr
            by_cases h : r₁.id = chat.id
            · rw [if_pos h]
              rw [h]
              rfl
            · rw [if_neg h] at hrid' ⊢
              exact absurd hrid' h
        · exact absurd hchat (by simp)
  · unfold logMe
    simp
  · intro hfind
    have hne : ∀ r ∈ db.users, ¬r.id = user.id := by
      intro r hr
      have := List.find?_eq_none.mp hfind r hr
      simpa using this
    have hmap : db.users.map (fun r =>
        if r.id = user.id then
          { r with firstName := user.firstName, lastName := user.lastName,
                   username := user.username,
                   languageCode := user.languageCode }
        else r) = db.users := by
      conv_rhs => rw [← List.map_id db.users]
      refine List.map_congr_left ?_
      intro r hr
      rw [if_neg (hne r hr)]
      rfl
    unfold logMe
    rw [hmap]
  · intro r hr hne
    unfold logMe
    simp only [List.mem_map]
    exact ⟨r, hr, by rw [if_neg hne]⟩
  · intro r hr heq
    unfold logMe
    simp only [List.mem_map]
    exact ⟨r, hr, by rw [if_pos heq]⟩

def chatSnapshot : ChatFullInfoE :=
  { id := 3, ctype := "channel", title := some "C",
    toDict := JVal.obj [("id", JVal.int 3), ("type", JVal.str "channel"),
      ("title", JVal.str "C"), ("accent_color_id", JVal.int 5)] }

def dbChatAfter : DB := { chats := [chatFullInfoRow chatSnapshot] }

theorem profile_refresher_upsert_amended_witness :
    logChatFullInfo ({} : DB) chatSnapshot 9 = some dbChatAfter ∧
    (((∃ r ∈ dbChatAfter.chats, r.id = chatSnapshot.id)
      ∧ ∀ r ∈ dbChatAfter.chats, r.id = chatSnapshot.id →
          r = chatFullInfoRow chatSnapshot)
    ∧ (logMe ({} : DB) meSnapshotNew).users.length = ({} : DB).users.length
    ∧ (({} : DB).users.find? (fun r => r.id = meSnapshotNew.id) = none →
        logMe ({} : DB) meSnapshotNew = ({} : DB))
    ∧ (∀ r ∈ ({} : DB).users, r.id ≠ meSnapshotNew.id →
        r ∈ (logMe ({} : DB) meSnapshotNew).users)
    ∧ (∀ r ∈ ({} : DB).users, r.id = meSnapshotNew.id →
        { r with firstName := meSnapshotNew.firstName,
                 lastName := meSnapshotNew.lastName,
                 username := meSnapshotNew.username,
                 languageCode := meSnapshotNew.languageCode } ∈
          (logMe ({} : DB) meSnapshotNew).users)) :=
  ⟨rfl, profile_refresher_upsert_amended ({} : DB) dbChatAfter chatSnapshot
    meSnapshotNew 9 rfl⟩

/-! ## C4 / C5: copy / forward synthesis -/

/-- The stored source message (1, 50), previously edited, captioned. -/
def origRowC4 : MsgRow :=
  { id := 50, chatId := 1, messageType := "text", text := some "hello",
    caption := some "cap", date := 1000, editDate := some 2000 }

/-- Storage for the copy scenarios: chats 1 and 2 exist, message (1,50)
is stored and associated with bot 9. -/
def dbC4 : DB :=
  { chats := [{ id := 1, ctype := "group" }, { id := 2, ctype := "channel" }],
    messages := [origRowC4],
    botMessages := [{ botId := 9, chatId := 1, messageId := 50 }] }

/-- `copyMessages` request: copy message 50 of chat 1 into chat 2,
removing the caption. -/
def reqC4 : JVal := JVal.obj
  [("chat_id", JVal.int 2), ("from_chat_id", JVal.int 1),
   ("message_ids", JVal.arr [JVal.int 50]),
   ("remove_caption", JVal.bool true)]

/-- The result: the copy got message id 99. -/
def dataC4 : JVal := JVal.arr [JVal.obj [("message_id", JVal.int 99)]]

/-- C4.  The `copyMessages` branch synthesizes the clone dict exactly as
claimed — id 99, chat 2, edit timestamp removed, caption cleared — but
no message row keyed (2, 99) (and no association row) is ever written:
the final `log_object` hand-off inserts nothing because its joinless
existence query reports every produced row as already existing, so
storage is returned byte-identical (the original (1, 50) row included). -/
theorem copy_messages_synthesizes_but_writes_no_row :
    (copiedMessageDict reqC4 "copyMessages" origRowC4 2 99).getKey
        "message_id" = some (JVal.int 99)
    ∧ ((copiedMessageDict reqC4 "copyMessages" origRowC4 2 99).getKey
        "chat").map (fun c => c.getKey "id") = some (some (JVal.int 2))
    ∧ (copiedMessageDict reqC4 "copyMessages" origRowC4 2 99).getKey
        "edit_date" = none
    ∧ (copiedMessageDict reqC4 "copyMessages" origRowC4 2 99).getKey
        "caption" = some JVal.null
    ∧ logTelegramRequest dbC4 reqC4 dataC4 "copyMessages" 9 none = some dbC4
    ∧ dbC4.messages.map (fun r => (r.chatId, r.id)) = [(1, 50)]
    ∧ (logTelegramRequest dbC4 reqC4 dataC4 "copyMessages" 9 none).map
        (fun d => d.messages.map (fun r => (r.chatId, r.id))) =
          some [(1, 50)] := by
  exact ⟨rfl, rfl, rfl, rfl, rfl, rfl, rfl⟩

/-- `copyMessage` request carrying a truthy `show_caption_above_media`. -/
def reqC5 : JVal := JVal.obj
  [("chat_id", JVal.int 2), ("from_chat_id", JVal.int 1),
   ("message_id", JVal.int 50), ("show_caption_above_media", JVal.bool true)]

/-- The same request without the flag. -/
def reqC5b : JVal := JVal.obj
  [("chat_id", JVal.int 2), ("from_chat_id", JVal.int 1),
   ("message_id", JVal.int 50)]

def dataC5 : JVal := JVal.obj [("message_id", JVal.int 99)]

/-- C5.  For a truthy `show_caption_above_media` the `copyMessage`
branch does not override that one field of the clone: it replaces the
entire cloned dict with the request value (`True`), after which the
re-decode fails and nothing at all is logged for the copy — whereas the
same request without the flag writes the (2, 99) clone row.  (The
`reply_markup` override, the last patch applied, replaces the whole dict
the same way.) -/
theorem copy_message_override_replaces_whole_record :
    copyMessagePatchedDict reqC5 origRowC4 2 (JVal.int 99) = JVal.bool true
    ∧ logTelegramRequest dbC4 reqC5 dataC5 "copyMessage" 9 none = none
    ∧ (logTelegramRequest dbC4 reqC5b dataC5 "copyMessage" 9 none).map
        (fun d => d.messages.map (fun r => (r.chatId, r.id))) =
          some [(1, 50), (2, 99)]
    ∧ copyMessagePatchedDict
        (JVal.obj [("chat_id", JVal.int 2), ("from_chat_id", JVal.int 1),
          ("message_id", JVal.int 50),
          ("reply_markup", JVal.obj [("inline_keyboard", JVal.arr [])])])
        origRowC4 2 (JVal.int 99) =
        JVal.obj [("inline_keyboard", JVal.arr [])] := by
  exact ⟨rfl, rfl, rfl, rfl⟩

/-! ## C8: silent skips of copy / forward synthesis -/

theorem logCopyForwardList_skips (db : DB) (req : JVal)
    (items : List JVal) (method : String) (botId : Int)
    (fetched : Option ChatFullInfoE) (ids : List Int)
    (hids : items.mapM (fun d => (d.getKey "message_id").bind JVal.asInt) =
      some ids)
    (hskip : ¬(reqGet req "chat_id").truthy = true ∨
      ¬(reqGet req "from_chat_id").truthy = true ∨
      ¬((req.getKey "message_ids").getD (JVal.arr [])).truthy = true ∨
      items = [] ∨
      db.messages.filter (copyForwardSourceFilter req) = []) :
    logCopyForwardList db req items method botId fetched = some db := by
  unfold logCopyForwardList
  dsimp only
  rw [hids]
  dsimp only
  split
  · rfl
  · rename_i hguard
    push_neg at hguard
    obtain ⟨hA, hB, hC, hD, hE⟩ := hguard
    have hflt : db.messages.filter (copyForwardSourceFilter req) = [] := by
      rcases hskip with h | h | h | h | h
      · exact absurd hA h
      · exact absurd hB h
      · exact absurd hC h
      · subst h
        have h0 : ids = [] := by
          have h' : (some ([] : List Int)) = some ids := hids
          exact (Option.some.inj h').symm
        exact absurd (h0 ▸ rfl) hD
      · exact h
    cases hchat : reqGet req "chat_id" with
    | str s =>
      have hrows : usernameJoinRows db (stripAts s)
          (copyForwardSourceFilter req) = [] := by
        unfold usernameJoinRows
        rw [hflt]
        rfl
      dsimp only
      rw [hrows]
      rfl
    | null => dsimp only; rw [hflt]; rfl
    | bool b => dsimp only; rw [hflt]; rfl
    | int n => dsimp only; rw [hflt]; rfl
    | arr xs => dsimp only; rw [hflt]; rfl
    | obj fs => dsimp only; rw [hflt]; rfl

theorem logCopyMessageSingle_skips (db : DB) (req : JVal) (data : JVal)
    (botId : Int) (fetched : Option ChatFullInfoE)
    (hskip : ¬(reqGet req "chat_id").truthy = true ∨
      ¬(reqGet req "from_chat_id").truthy = true ∨
      ¬(reqGet req "message_id").truthy = true ∨
      ¬((data.getKey "message_id").getD JVal.null).truthy = true ∨
      db.messages.filter (copyMessageSourceFilter req) = []) :
    logCopyMessageSingle db req data botId fetched = some db := by
  unfold logCopyMessageSingle
  dsimp only
  split
  · rfl
  · rename_i hguard
    push_neg at hguard
    obtain ⟨hA, hB, hC, hD⟩ := hguard
    have hflt : db.messages.filter (copyMessageSourceFilter req) = [] := by
      rcases hskip with h | h | h | h | h
      · exact absurd hA h
      · exact absurd hB h
      · exact absurd hC h
      · exact absurd hD h
      · exact h
    cases hchat : reqGet req "chat_id" with
    | str s =>
      have hrows : usernameJoinRows db (stripAts s)
          (copyMessageSourceFilter req) = [] := by
        unfold usernameJoinRows
        rw [hflt]
        rfl
      dsimp only
      rw [hrows]
      rfl
    | null => dsimp only; rw [hflt]; rfl
    | bool b => dsimp only; rw [hflt]; rfl
    | int n => dsimp only; rw [hflt]; rfl
    | arr xs => dsimp only; rw [hflt]; rfl
    | obj fs => dsimp only; rw [hflt]; rfl

/-- C8.  Copy/forward synthesis is skipped silently — storage is
returned unchanged and no error escapes — whenever a required request
parameter is missing/falsy (destination chat id, source chat id, source
message id(s), or the result's new id(s)) or no source message matching
the request was ever logged. -/
theorem copy_forward_missing_or_unlogged_skips (db : DB) (req : JVal)
    (botId : Int) (fetched : Option ChatFullInfoE) :
    (∀ (items : List JVal) (method : String),
      (method = "copyMessages" ∨ method = "forwardMessages") →
      (items.mapM (fun d : JVal =>
        (d.getKey "message_id").bind JVal.asInt)).isSome →
      (¬(reqGet req "chat_id").truthy = true ∨
        ¬(reqGet req "from_chat_id").truthy = true ∨
        ¬((req.getKey "message_ids").getD (JVal.arr [])).truthy = true ∨
        items = [] ∨
        db.messages.filter (copyForwardSourceFilter req) = []) →
      logTelegramRequest db req (JVal.arr items) method botId fetched =
        some db)
    ∧ (∀ (fields : List (String × JVal)),
      (¬(reqGet req "chat_id").truthy = true ∨
        ¬(reqGet req "from_chat_id").truthy = true ∨
        ¬(reqGet req "message_id").truthy = true ∨
        ¬(((JVal.obj fields).getKey "message_id").getD JVal.null).truthy
          = true ∨
        db.messages.filter (copyMessageSourceFilter req) = []) →
      logTelegramRequest db req (JVal.obj fields) "copyMessage" botId
        fetched = some db) := by
  constructor
  · intro items method hmethod hids hskip
    obtain ⟨ids, hids'⟩ := Option.isSome_iff_exists.mp hids
    have hmain := logCopyForwardList_skips db req items method botId
      fetched ids hids' hskip
    rcases hmethod with rfl | rfl
    · exact hmain
    · exact hmain
  · intro fields hskip
    exact logCopyMessageSingle_skips db req (JVal.obj fields) botId
      fetched hskip

theorem copy_forward_missing_or_unlogged_skips_witness :
    logTelegramRequest ({} : DB) reqC4
        (JVal.arr [JVal.obj [("message_id", JVal.int 99)]]) "copyMessages"
        9 none = some ({} : DB)
    ∧ logTelegramRequest ({} : DB) (JVal.obj []) (JVal.obj [("message_id",
        JVal.int 99)]) "copyMessage" 9 none = some ({} : DB) :=
  ⟨(copy_forward_missing_or_unlogged_skips ({} : DB) reqC4 9 none).1
      [JVal.obj [("message_id", JVal.int 99)]] "copyMessages"
      (Or.inl rfl) (by decide)
      (Or.inr (Or.inr (Or.inr (Or.inr rfl)))),
   (copy_forward_missing_or_unlogged_skips ({} : DB) (JVal.obj []) 9
      none).2 [("message_id", JVal.int 99)] (Or.inl (by decide))⟩

theorem empty_kind_null_key_rows_witness :
    ({ fileUniqueId := none, rowExists := true, botRelation := some true,
       etype := 4 } : CheckRow).fileUniqueId = none :=
  ((empty_kind_null_key_rows dbFileOnly [] [] [(1, 5)] [] 9).2
      [{ fileUniqueId := none, rowExists := true, botRelation := some true,
         etype := 4 }] rfl).2.2 rfl
    { fileUniqueId := none, rowExists := true, botRelation := some true,
      etype := 4 }
    (by decide) rfl
